import Mathlib

/-!
Verification of the asynchronous I/O handle lifecycle and the streaming
read-ahead engine (src/backend/storage/aio/aio.c, aio_io.c, aio_subject.c,
streaming_read.c).

The C code is embedded shallowly: machine integers become Nat/Int with
explicit reduction mod 2^32 / 2^64 where the C type can overflow, the
per-backend mutable state becomes explicit records threaded through the
functions, cross-process interaction (the states another process may put a
handle into, the values the buffer manager or a system call returns) becomes
an explicit environment parameter, and elog(ERROR)/elog(PANIC)/ereport(ERROR)
become Except-style error results.  Assert() is compiled out in production
builds, so it is embedded as a no-op; the conditions asserted appear as
hypotheses of the theorems instead.  Memory barriers and state-publication
points are recorded in an explicit event trace so that ordering claims about
them can be stated.
-/

/-- The 8 handle states of PgAioHandleState (storage/aio.h, used throughout
aio.c). -/
inductive PgAioHandleState
  | AHS_IDLE
  | AHS_HANDED_OUT
  | AHS_DEFINED
  | AHS_PREPARED
  | AHS_IN_FLIGHT
  | AHS_REAPED
  | AHS_COMPLETED_SHARED
  | AHS_COMPLETED_LOCAL
  deriving DecidableEq, Repr

/-- The operation kinds of PgAioOp (aio_io.c pgaio_io_get_op_name lists them:
invalid, read, write, fsync, flush_range, nop). -/
inductive PgAioOp
  | PGAIO_OP_INVALID
  | PGAIO_OP_READ
  | PGAIO_OP_WRITE
  | PGAIO_OP_FSYNC
  | PGAIO_OP_FLUSH_RANGE
  | PGAIO_OP_NOP
  deriving DecidableEq, Repr

/-- Modelled from the spec: the status component of a distilled result,
`{status ∈ {UNKNOWN, OK, …}, id, error_data, result}` (spec §3); the header
defining ARS_* is not under src/.  aio_subject.c uses ARS_OK for the initial
low-level result. -/
inductive PgAioResultStatus
  | ARS_UNKNOWN
  | ARS_OK
  | ARS_ERROR
  deriving DecidableEq, Repr

/-- The distilled result record PgAioResult (fields as used in
aio_subject.c pgaio_io_process_completion_subject). -/
structure PgAioResult where
  status : PgAioResultStatus
  id : Nat
  error_data : Int
  result : Int
  deriving DecidableEq, Repr

/-- One AIO handle (PgAioHandle).  Only the fields the embedded functions
read or write are modelled; pointers into caller memory (report_return,
resowner) are modelled as flags, the bounce-buffer list as a list of buffer
ids, and the shared-callback array together with num_shared_callbacks as a
Lean list in registration order. -/
structure PgAioHandle where
  state : PgAioHandleState
  generation : Nat
  owner_procno : Int
  op : PgAioOp
  scb_data : Int
  shared_callbacks : List Nat
  iovec_data_len : Nat
  result : Int
  distilled_result : PgAioResult
  report_return : Bool
  flags : Nat
  bounce_buffers : List Nat
  resowner : Bool
  deriving DecidableEq, Repr

/-- Events recorded while a handle-lifecycle function runs: the memory
barriers it issues, the generation bump, the state stores other processes
can observe, the condition-variable broadcast and the push back onto the
idle list. -/
inductive AioEvent
  | write_barrier
  | bump_generation
  | set_state (s : PgAioHandleState)
  | cv_broadcast
  | push_idle_list
  deriving DecidableEq, Repr

/-- Cardinality of the C type uint64; `generation` arithmetic happens mod
this. -/
def UINT64_CARD : Nat := 2 ^ 64

/-- Cardinality of the C type uint32; casts to uint32 reduce mod this. -/
def UINT32_CARD : Nat := 2 ^ 32

/-- PG_UINT32_MAX, the reserved invalid aio_index of a cleared reference
(aio.c pgaio_io_ref_clear). -/
def PG_UINT32_MAX : Nat := 4294967295

/-- A handle reference (PgAioHandleRef): an index plus the 64-bit generation
split into two uint32 halves. -/
structure PgAioHandleRef where
  aio_index : Nat
  generation_upper : Nat
  generation_lower : Nat
  deriving DecidableEq, Repr

/-- Embedding of pgaio_io_get_ref (aio.c:291-302): store the handle's index
and its generation split into upper/lower uint32 halves.  The C casts to
uint32 are the explicit reductions mod 2^32. -/
def pgaio_io_get_ref (aio_index : Nat) (generation : Nat) : PgAioHandleRef :=
  { aio_index := aio_index
  , generation_upper := (generation >>> 32) % UINT32_CARD
  , generation_lower := generation % UINT32_CARD }

/-- Embedding of pgaio_io_from_ref (aio.c:570-585): resolve a reference to
the handle index and the reconstructed 64-bit generation
`((uint64) upper) << 32 | lower`. -/
def pgaio_io_from_ref (ior : PgAioHandleRef) : Nat × Nat :=
  (ior.aio_index, (ior.generation_upper <<< 32) ||| ior.generation_lower)

/-- Embedding of pgaio_io_reclaim (aio.c:597-658).  The early bookkeeping
(copying distilled_result into *report_return, pushing the handle's bounce
buffers back onto my_aio->idle_bbs, forgetting the resource owner, resetting
num_shared_callbacks / iovec_data_len / report_return / flags) issues no
barrier or publication, so it contributes state changes but no events; the
tail of the function is
  pg_write_barrier(); generation++; pg_write_barrier();
  state = AHS_IDLE; pg_write_barrier(); dclist_push_tail(idle_ios, ...)
which is recorded in the event trace.  `generation` is a uint64, so the
increment is mod 2^64. -/
def pgaio_io_reclaim (ioh : PgAioHandle) : PgAioHandle × List AioEvent :=
  let h1 : PgAioHandle :=
    { ioh with
      bounce_buffers := []
      resowner := false
      shared_callbacks := []
      iovec_data_len := 0
      report_return := false
      flags := 0 }
  let h2 : PgAioHandle := { h1 with generation := (h1.generation + 1) % UINT64_CARD }
  let h3 : PgAioHandle := { h2 with state := PgAioHandleState.AHS_IDLE }
  (h3,
   [AioEvent.write_barrier, AioEvent.bump_generation,
    AioEvent.write_barrier, AioEvent.set_state PgAioHandleState.AHS_IDLE,
    AioEvent.write_barrier, AioEvent.push_idle_list])

/-- One registered shared-callback definition (PgAioHandleSharedCallbacks in
aio_subject.c): an optional prepare hook, which may mutate the subject data,
and a complete hook, which reads the subject data and distills the running
result.  The concrete table aio_shared_cbs[] is empty in this tree, so the
table is an environment parameter mapping callback ids to definitions. -/
structure PgAioHandleSharedCallbacks where
  prepare : Option (Int → Int)
  complete : Int → PgAioResult → PgAioResult

/-- The countdown loop of pgaio_io_prepare_subject (aio_subject.c:71-85):
`for (i = num_shared_callbacks; i > 0; i--)` invokes
shared_callbacks[i - 1], skipping entries whose prepare hook is NULL.
Returns the final subject data and the trace of invoked callback ids in
execution order. -/
def pgaio_io_prepare_subject_loop (tbl : Nat → PgAioHandleSharedCallbacks)
    (cbs : List Nat) (scb : Int) : Nat → Int × List Nat
  | 0 => (scb, [])
  | Nat.succ i =>
    let cbid := cbs.getD i 0
    match (tbl cbid).prepare with
    | none => pgaio_io_prepare_subject_loop tbl cbs scb i
    | some f =>
      let scb2 := f scb
      let r := pgaio_io_prepare_subject_loop tbl cbs scb2 i
      (r.1, cbid :: r.2)

/-- Embedding of pgaio_io_prepare_subject (aio_subject.c:65-86): run the
prepare hooks over the registered callbacks, latest registration first.
Returns the updated handle and the execution-order trace of callback ids. -/
def pgaio_io_prepare_subject (tbl : Nat → PgAioHandleSharedCallbacks)
    (ioh : PgAioHandle) : PgAioHandle × List Nat :=
  let r := pgaio_io_prepare_subject_loop tbl ioh.shared_callbacks ioh.scb_data
    ioh.shared_callbacks.length
  ({ ioh with scb_data := r.1 }, r.2)

/-- The countdown loop of pgaio_io_process_completion_subject
(aio_subject.c:101-116): `for (i = num_shared_callbacks; i > 0; i--)` feeds
the running result through shared_callbacks[i - 1]->complete.  Returns the
final result and the trace of invoked callback ids in execution order. -/
def pgaio_io_completion_subject_loop (tbl : Nat → PgAioHandleSharedCallbacks)
    (cbs : List Nat) (scb : Int) (res : PgAioResult) : Nat → PgAioResult × List Nat
  | 0 => (res, [])
  | Nat.succ i =>
    let cbid := cbs.getD i 0
    let res2 := (tbl cbid).complete scb res
    let r := pgaio_io_completion_subject_loop tbl cbs scb res2 i
    (r.1, cbid :: r.2)

/-- Embedding of pgaio_io_process_completion_subject (aio_subject.c:88-129):
start from `{status = ARS_OK, result = ioh->result, id = 0, error_data = 0}`,
run the complete hooks latest registration first, and store the final value
in distilled_result. -/
def pgaio_io_process_completion_subject (tbl : Nat → PgAioHandleSharedCallbacks)
    (ioh : PgAioHandle) : PgAioHandle × List Nat :=
  let init : PgAioResult :=
    { status := PgAioResultStatus.ARS_OK, result := ioh.result, id := 0, error_data := 0 }
  let r := pgaio_io_completion_subject_loop tbl ioh.shared_callbacks ioh.scb_data init
    ioh.shared_callbacks.length
  ({ ioh with distilled_result := r.1 }, r.2)

/-- Embedding of pgaio_io_process_completion (aio.c:526-550): store the raw
result, publish AHS_REAPED behind a write barrier, run the shared completion
callbacks, publish AHS_COMPLETED_SHARED behind a write barrier, broadcast
the handle's condition variable, and, when the executing process owns the
handle, reclaim it. -/
def pgaio_io_process_completion (tbl : Nat → PgAioHandleSharedCallbacks)
    (myProcNumber : Int) (ioh : PgAioHandle) (result : Int) :
    PgAioHandle × List AioEvent :=
  let h1 : PgAioHandle := { ioh with result := result }
  let h2 : PgAioHandle := { h1 with state := PgAioHandleState.AHS_REAPED }
  let h3 : PgAioHandle := (pgaio_io_process_completion_subject tbl h2).1
  let h4 : PgAioHandle := { h3 with state := PgAioHandleState.AHS_COMPLETED_SHARED }
  let evs : List AioEvent :=
    [AioEvent.write_barrier, AioEvent.set_state PgAioHandleState.AHS_REAPED,
     AioEvent.write_barrier, AioEvent.set_state PgAioHandleState.AHS_COMPLETED_SHARED,
     AioEvent.cv_broadcast]
  if ioh.owner_procno = myProcNumber then
    let r := pgaio_io_reclaim h4
    (r.1, evs ++ r.2)
  else
    (h4, evs)

/-- The outcome of the preadv/pwritev system call issued by
pgaio_io_perform_synchronously: the raw return value and the errno in effect
when it is negative.  The call itself is outside the repository. -/
structure SyscallOutcome where
  ret : Int
  err : Int

/-- Embedding of pgaio_io_perform_synchronously (aio_io.c:81-112): dispatch
on the operation (READ issues preadv, WRITE issues pwritev, anything else is
elog(ERROR, "not yet")), store `result < 0 ? -errno : result` into
ioh->result, and hand that value to pgaio_io_process_completion. -/
def pgaio_io_perform_synchronously (tbl : Nat → PgAioHandleSharedCallbacks)
    (myProcNumber : Int) (ioh : PgAioHandle) (sys : SyscallOutcome) :
    Except Unit (PgAioHandle × List AioEvent) :=
  match ioh.op with
  | PgAioOp.PGAIO_OP_READ =>
    let r : Int := if sys.ret < 0 then -sys.err else sys.ret
    let h1 : PgAioHandle := { ioh with result := r }
    Except.ok (pgaio_io_process_completion tbl myProcNumber h1 h1.result)
  | PgAioOp.PGAIO_OP_WRITE =>
    let r : Int := if sys.ret < 0 then -sys.err else sys.ret
    let h1 : PgAioHandle := { ioh with result := r }
    Except.ok (pgaio_io_process_completion tbl myProcNumber h1 h1.result)
  | _ => Except.error ()

/-- Projection of an event trace to the sequence of states stored into
ioh->state. -/
def stateTrace (evs : List AioEvent) : List PgAioHandleState :=
  evs.filterMap fun e =>
    match e with
    | AioEvent.set_state s => some s
    | _ => none

/-- The execution-order trace of the prepare-hook countdown loop is the
reverse of the first `i` registered callbacks, restricted to those that have
a prepare hook. -/
theorem pgaio_io_prepare_subject_loop_trace (tbl : Nat → PgAioHandleSharedCallbacks)
    (cbs : List Nat) (i : Nat) (h : i ≤ cbs.length) :
    ∀ scb : Int, (pgaio_io_prepare_subject_loop tbl cbs scb i).2 =
      ((cbs.take i).filter fun c => (tbl c).prepare.isSome).reverse := by
  induction i with
  | zero => intro scb; rfl
  | succ i ih =>
    intro scb
    have hi : i < cbs.length := Nat.lt_of_succ_le h
    have hTake : cbs.take (i + 1) = cbs.take i ++ [cbs[i]] := by
      rw [List.take_succ, List.getElem?_eq_getElem hi]
      rfl
    have hD : cbs.getD i 0 = cbs[i] := by
      simp [List.getD_eq_getElem?_getD, List.getElem?_eq_getElem hi]
    rw [hTake, List.filter_append, List.reverse_append]
    cases hp : (tbl cbs[i]).prepare with
    | none =>
      simp only [pgaio_io_prepare_subject_loop, hD, hp]
      rw [ih (Nat.le_of_lt hi) scb]
      simp [hp]
    | some f =>
      simp only [pgaio_io_prepare_subject_loop, hD, hp]
      rw [ih (Nat.le_of_lt hi) (f scb)]
      simp [hp]

/-- The completion countdown loop folds the running result through the first
`i` registered callbacks in reverse order and reports that order as its
trace. -/
theorem pgaio_io_completion_subject_loop_spec (tbl : Nat → PgAioHandleSharedCallbacks)
    (cbs : List Nat) (scb : Int) (i : Nat) (h : i ≤ cbs.length) :
    ∀ res : PgAioResult, pgaio_io_completion_subject_loop tbl cbs scb res i =
      (((cbs.take i).reverse).foldl (fun r c => (tbl c).complete scb r) res,
       (cbs.take i).reverse) := by
  induction i with
  | zero => intro res; rfl
  | succ i ih =>
    intro res
    have hi : i < cbs.length := Nat.lt_of_succ_le h
    have hTake : cbs.take (i + 1) = cbs.take i ++ [cbs[i]] := by
      rw [List.take_succ, List.getElem?_eq_getElem hi]
      rfl
    have hD : cbs.getD i 0 = cbs[i] := by
      simp [List.getD_eq_getElem?_getD, List.getElem?_eq_getElem hi]
    rw [hTake, List.reverse_append]
    simp only [pgaio_io_completion_subject_loop, hD]
    rw [ih (Nat.le_of_lt hi)]
    simp

/-- A concrete handle used to instantiate theorems with hypotheses. -/
def sampleHandle : PgAioHandle :=
  { state := PgAioHandleState.AHS_COMPLETED_SHARED
    generation := 1
    owner_procno := 3
    op := PgAioOp.PGAIO_OP_READ
    scb_data := 0
    shared_callbacks := []
    iovec_data_len := 0
    result := 0
    distilled_result :=
      { status := PgAioResultStatus.ARS_UNKNOWN, id := 0, error_data := 0, result := 0 }
    report_return := false
    flags := 0
    bounce_buffers := []
    resowner := false }

/-- C2: pgaio_io_reclaim increments the handle's generation exactly once,
so that (in any reachable state, where the generation is nonzero and, the
counter being 64 bits wide, cannot overflow) generation_after is strictly
greater than generation_before and both are nonzero; and the event trace is
exactly a write barrier, the generation bump, a write barrier, the store of
AHS_IDLE, and a final write barrier before the handle rejoins the idle
list — the transition to IDLE and the generation bump are each bracketed by
write barriers. -/
theorem pgaio_io_reclaim_generation_monotone (ioh : PgAioHandle)
    (hnz : ioh.generation ≠ 0) (hov : ioh.generation + 1 < UINT64_CARD) :
    (pgaio_io_reclaim ioh).1.generation > ioh.generation ∧
    ioh.generation ≠ 0 ∧
    (pgaio_io_reclaim ioh).1.generation ≠ 0 ∧
    ((pgaio_io_reclaim ioh).2.countP fun e => e == AioEvent.bump_generation) = 1 ∧
    (pgaio_io_reclaim ioh).2 =
      [AioEvent.write_barrier, AioEvent.bump_generation, AioEvent.write_barrier,
       AioEvent.set_state PgAioHandleState.AHS_IDLE, AioEvent.write_barrier,
       AioEvent.push_idle_list] := by
  have hgen : (pgaio_io_reclaim ioh).1.generation = ioh.generation + 1 := by
    show (ioh.generation + 1) % UINT64_CARD = ioh.generation + 1
    exact Nat.mod_eq_of_lt hov
  refine ⟨?_, hnz, ?_, ?_, rfl⟩
  · rw [hgen]; omega
  · rw [hgen]; omega
  · rfl

/-- Witness for C2 at a concrete handle with generation 1. -/
theorem pgaio_io_reclaim_generation_monotone_witness :
    (pgaio_io_reclaim sampleHandle).1.generation > sampleHandle.generation ∧
    sampleHandle.generation ≠ 0 ∧
    (pgaio_io_reclaim sampleHandle).1.generation ≠ 0 ∧
    ((pgaio_io_reclaim sampleHandle).2.countP fun e => e == AioEvent.bump_generation) = 1 ∧
    (pgaio_io_reclaim sampleHandle).2 =
      [AioEvent.write_barrier, AioEvent.bump_generation, AioEvent.write_barrier,
       AioEvent.set_state PgAioHandleState.AHS_IDLE, AioEvent.write_barrier,
       AioEvent.push_idle_list] :=
  pgaio_io_reclaim_generation_monotone sampleHandle (by decide) (by decide)

/-- C4: a handle prepared for READ or WRITE and executed synchronously
stores the syscall's return value when it is nonnegative and -errno when it
is negative, hands exactly that value to pgaio_io_process_completion, and
the published state sequence passes through AHS_REAPED and then
AHS_COMPLETED_SHARED. -/
theorem pgaio_io_perform_synchronously_result (tbl : Nat → PgAioHandleSharedCallbacks)
    (myProcNumber : Int) (ioh : PgAioHandle) (sys : SyscallOutcome)
    (hop : ioh.op = PgAioOp.PGAIO_OP_READ ∨ ioh.op = PgAioOp.PGAIO_OP_WRITE)
    (_hst : ioh.state = PgAioHandleState.AHS_IN_FLIGHT) :
    ∃ h2 evs,
      pgaio_io_perform_synchronously tbl myProcNumber ioh sys = Except.ok (h2, evs) ∧
      (h2, evs) = pgaio_io_process_completion tbl myProcNumber
          { ioh with result := if sys.ret < 0 then -sys.err else sys.ret }
          (if sys.ret < 0 then -sys.err else sys.ret) ∧
      h2.result = (if sys.ret < 0 then -sys.err else sys.ret) ∧
      (stateTrace evs).take 2 =
        [PgAioHandleState.AHS_REAPED, PgAioHandleState.AHS_COMPLETED_SHARED] := by
  have hres : ∀ ioh2 r, ((pgaio_io_process_completion tbl myProcNumber ioh2 r).1.result = r ∧
      (stateTrace (pgaio_io_process_completion tbl myProcNumber ioh2 r).2).take 2 =
        [PgAioHandleState.AHS_REAPED, PgAioHandleState.AHS_COMPLETED_SHARED]) := by
    intro ioh2 r
    unfold pgaio_io_process_completion
    by_cases hOwn : ioh2.owner_procno = myProcNumber
    · simp [hOwn, pgaio_io_reclaim, pgaio_io_process_completion_subject, stateTrace]
    · simp [hOwn, pgaio_io_process_completion_subject, stateTrace]
  rcases hop with hop | hop
  · refine ⟨_, _, ?_, rfl, (hres _ _).1, (hres _ _).2⟩
    unfold pgaio_io_perform_synchronously
    rw [hop]
    rfl
  · refine ⟨_, _, ?_, rfl, (hres _ _).1, (hres _ _).2⟩
    unfold pgaio_io_perform_synchronously
    rw [hop]
    rfl

/-- Witness for C4: a READ handle whose syscall returned -1 with errno 5
stores result -5 and completes through REAPED and COMPLETED_SHARED. -/
theorem pgaio_io_perform_synchronously_result_witness :
    ∃ h2 evs,
      pgaio_io_perform_synchronously (fun _ => ⟨none, fun _ r => r⟩) 3
          { sampleHandle with state := PgAioHandleState.AHS_IN_FLIGHT } ⟨-1, 5⟩ =
        Except.ok (h2, evs) ∧
      (h2, evs) = pgaio_io_process_completion (fun _ => ⟨none, fun _ r => r⟩) 3
          { { sampleHandle with state := PgAioHandleState.AHS_IN_FLIGHT } with
              result := if (-1 : Int) < 0 then -(5 : Int) else -1 }
          (if (-1 : Int) < 0 then -(5 : Int) else -1) ∧
      h2.result = (if (-1 : Int) < 0 then -(5 : Int) else -1) ∧
      (stateTrace evs).take 2 =
        [PgAioHandleState.AHS_REAPED, PgAioHandleState.AHS_COMPLETED_SHARED] :=
  pgaio_io_perform_synchronously_result (fun _ => ⟨none, fun _ r => r⟩) 3
    { sampleHandle with state := PgAioHandleState.AHS_IN_FLIGHT } ⟨-1, 5⟩
    (Or.inl rfl) rfl

/-- A concrete two-entry callback table: callbacks 0 and 1 both have prepare
hooks and complete hooks that act differently on error_data, so execution
order is observable. -/
def twoCallbackTable : Nat → PgAioHandleSharedCallbacks := fun cbid =>
  if cbid = 0 then
    { prepare := some (fun x => x + 1)
      complete := fun _ r => { r with error_data := r.error_data + 1 } }
  else
    { prepare := some (fun x => x * 2)
      complete := fun _ r => { r with error_data := r.error_data * 2 } }

/-- A handle with callbacks registered in the order [0, 1], so callback 1 is
the latest-added one. -/
def twoCallbackHandle : PgAioHandle :=
  { sampleHandle with
    state := PgAioHandleState.AHS_DEFINED
    shared_callbacks := [0, 1] }

/-- C5 counterexample: with callbacks registered in order [0, 1], the
prepare-time execution order is [1, 0] — the latest-added callback (id 1) is
the first, not the last, to prepare, refuting the claim that the latest-added
callback is last to prepare. -/
theorem pgaio_io_prepare_subject_latest_not_last :
    (pgaio_io_prepare_subject twoCallbackTable twoCallbackHandle).2 = [1, 0] ∧
    ((pgaio_io_prepare_subject twoCallbackTable twoCallbackHandle).2).getLast? = some 0 ∧
    twoCallbackHandle.shared_callbacks.getLast? = some 1 ∧
    ((pgaio_io_prepare_subject twoCallbackTable twoCallbackHandle).2).getLast? ≠
      twoCallbackHandle.shared_callbacks.getLast? := by
  refine ⟨rfl, rfl, rfl, by decide⟩

/-- C5 (amended): the prepare-time callbacks run in reverse registration
order, so the latest-added callback is the first (and the earliest-added the
last) to prepare; at completion time the callbacks likewise run in reverse
registration order, each receiving the running result struct and returning
an updated one, and the final value is stored as distilled_result. -/
theorem pgaio_io_subject_callbacks_reverse_order
    (tbl : Nat → PgAioHandleSharedCallbacks) (ioh : PgAioHandle) :
    (pgaio_io_prepare_subject tbl ioh).2 =
      (ioh.shared_callbacks.filter fun c => (tbl c).prepare.isSome).reverse ∧
    (pgaio_io_process_completion_subject tbl ioh).2 = ioh.shared_callbacks.reverse ∧
    (pgaio_io_process_completion_subject tbl ioh).1.distilled_result =
      ioh.shared_callbacks.reverse.foldl (fun r c => (tbl c).complete ioh.scb_data r)
        { status := PgAioResultStatus.ARS_OK, result := ioh.result, id := 0,
          error_data := 0 } := by
  refine ⟨?_, ?_, ?_⟩
  · show (pgaio_io_prepare_subject_loop tbl ioh.shared_callbacks ioh.scb_data
        ioh.shared_callbacks.length).2 = _
    rw [pgaio_io_prepare_subject_loop_trace tbl ioh.shared_callbacks
      ioh.shared_callbacks.length le_rfl ioh.scb_data, List.take_length]
  · show (pgaio_io_completion_subject_loop tbl ioh.shared_callbacks ioh.scb_data _
        ioh.shared_callbacks.length).2 = _
    rw [pgaio_io_completion_subject_loop_spec tbl ioh.shared_callbacks ioh.scb_data
      ioh.shared_callbacks.length le_rfl]
    rw [List.take_length]
  · show (pgaio_io_completion_subject_loop tbl ioh.shared_callbacks ioh.scb_data _
        ioh.shared_callbacks.length).1 = _
    rw [pgaio_io_completion_subject_loop_spec tbl ioh.shared_callbacks ioh.scb_data
      ioh.shared_callbacks.length le_rfl]
    rw [List.take_length]

/-- C9: building a reference from a handle index below io_handle_count and
a nonzero 64-bit generation, then resolving it, returns the same index and
reconstructs exactly the original generation: splitting into uint32 halves
followed by joining is the identity on uint64 values. -/
theorem pgaio_io_ref_roundtrip (io_handle_count i g : Nat)
    (_hidx : i < io_handle_count) (_hnz : g ≠ 0) (hg : g < UINT64_CARD) :
    pgaio_io_from_ref (pgaio_io_get_ref i g) = (i, g) := by
  unfold pgaio_io_from_ref pgaio_io_get_ref
  simp only [Prod.mk.injEq, true_and]
  have hsh : g >>> 32 < UINT32_CARD := by
    rw [Nat.shiftRight_eq_div_pow]
    apply Nat.div_lt_of_lt_mul
    have he : (2 : Nat) ^ 32 * 2 ^ 32 = 2 ^ 64 := by norm_num
    unfold UINT32_CARD
    rw [he]
    exact hg
  rw [Nat.mod_eq_of_lt hsh]
  show ((g >>> 32) <<< 32) ||| (g % 2 ^ 32) = g
  apply Nat.eq_of_testBit_eq
  intro j
  simp only [Nat.testBit_lor, Nat.testBit_shiftLeft, Nat.testBit_shiftRight,
    Nat.testBit_mod_two_pow]
  rcases lt_or_ge j 32 with hj | hj
  · have h1 : ¬ 32 ≤ j := Nat.not_le.mpr hj
    simp [h1, hj]
  · have h2 : ¬ j < 32 := Nat.not_lt.mpr hj
    have h3 : 32 + (j - 32) = j := by omega
    simp [hj, h2, h3]

/-- Witness for C9 at index 2 of a 4-handle pool with generation 7. -/
theorem pgaio_io_ref_roundtrip_witness :
    pgaio_io_from_ref (pgaio_io_get_ref 2 7) = (2, 7) :=
  pgaio_io_ref_roundtrip 4 2 7 (by decide) (by decide) (by decide)

/-- One observation of the handle's shared state by pgaio_io_was_recycled
(aio.c:323-330): it reads ioh->state, issues a read barrier, and compares
ioh->generation with the reference's generation.  Other processes mutate the
handle concurrently, so each read may see a new (generation, state) pair;
a run of pgaio_io_ref_wait is therefore modelled against the list of pairs
its successive reads observe. -/
structure HandleObservation where
  gen : Nat
  state : PgAioHandleState
  deriving DecidableEq, Repr

/-- How a run of pgaio_io_ref_wait ends: a normal return (recording whether
the handle was reclaimed on the way out), the elog(ERROR, "IO in wrong
state") raised when the wait loop observes IDLE or HANDED_OUT, the
elog(PANIC, "waiting for own IO in wrong state") raised by the owner's entry
check, or exhaustion of the supplied observation list (the run is still
waiting). -/
inductive RefWaitOutcome
  | returned (reclaimed : Bool)
  | wrong_state_raised
  | wrong_state_panic
  | still_waiting
  deriving DecidableEq, Repr

/-- The inner condition-variable sleep loop of pgaio_io_ref_wait
(aio.c:404-410): on each wakeup re-run pgaio_io_was_recycled and exit when
the reference is recycled or the state has left {REAPED, DEFINED,
IN_FLIGHT}; otherwise sleep again.  Returns the observations left for the
outer loop. -/
def pgaio_cv_sleep_loop (refgen : Nat) :
    List HandleObservation → List HandleObservation
  | [] => []
  | o :: rest =>
    if o.gen ≠ refgen then rest
    else if o.state ≠ PgAioHandleState.AHS_REAPED ∧
        o.state ≠ PgAioHandleState.AHS_DEFINED ∧
        o.state ≠ PgAioHandleState.AHS_IN_FLIGHT then rest
    else pgaio_cv_sleep_loop refgen rest

/-- The sleep loop consumes observations, never invents them. -/
theorem pgaio_cv_sleep_loop_length_le (refgen : Nat) :
    ∀ l : List HandleObservation, (pgaio_cv_sleep_loop refgen l).length ≤ l.length
  | [] => le_rfl
  | o :: rest => by
    unfold pgaio_cv_sleep_loop
    split
    · exact Nat.le_succ rest.length
    · split
      · exact Nat.le_succ rest.length
      · exact Nat.le_succ_of_le (pgaio_cv_sleep_loop_length_le refgen rest)

/-- The outer wait loop of pgaio_io_ref_wait (aio.c:373-423).  Each turn
re-runs pgaio_io_was_recycled (consuming one observation) and returns when
the reference is recycled; raises elog(ERROR) on IDLE or HANDED_OUT; on
IN_FLIGHT either invokes the method's targeted waiter and continues, or
falls through to the condition-variable sleep; on PREPARED, DEFINED and
REAPED sleeps on the condition variable; on COMPLETED_SHARED reclaims when
owner and returns; on COMPLETED_LOCAL returns. -/
def pgaio_io_ref_wait_loop (am_owner has_wait_one : Bool) (refgen : Nat) :
    List HandleObservation → RefWaitOutcome
  | [] => RefWaitOutcome.still_waiting
  | o :: rest =>
    if o.gen ≠ refgen then RefWaitOutcome.returned false
    else
      match o.state with
      | PgAioHandleState.AHS_IDLE => RefWaitOutcome.wrong_state_raised
      | PgAioHandleState.AHS_HANDED_OUT => RefWaitOutcome.wrong_state_raised
      | PgAioHandleState.AHS_IN_FLIGHT =>
        if has_wait_one then
          pgaio_io_ref_wait_loop am_owner has_wait_one refgen rest
        else
          pgaio_io_ref_wait_loop am_owner has_wait_one refgen
            (pgaio_cv_sleep_loop refgen rest)
      | PgAioHandleState.AHS_PREPARED =>
        pgaio_io_ref_wait_loop am_owner has_wait_one refgen
          (pgaio_cv_sleep_loop refgen rest)
      | PgAioHandleState.AHS_DEFINED =>
        pgaio_io_ref_wait_loop am_owner has_wait_one refgen
          (pgaio_cv_sleep_loop refgen rest)
      | PgAioHandleState.AHS_REAPED =>
        pgaio_io_ref_wait_loop am_owner has_wait_one refgen
          (pgaio_cv_sleep_loop refgen rest)
      | PgAioHandleState.AHS_COMPLETED_SHARED => RefWaitOutcome.returned am_owner
      | PgAioHandleState.AHS_COMPLETED_LOCAL => RefWaitOutcome.returned false
termination_by l => l.length
decreasing_by
  all_goals simp only [List.length_cons]
  all_goals first
    | exact Nat.lt_succ_of_le le_rfl
    | exact Nat.lt_succ_of_le (pgaio_cv_sleep_loop_length_le refgen rest)

/-- Embedding of pgaio_io_ref_wait (aio.c:332-424).  The entry sequence
resolves the reference, checks for recycling, and — when the caller owns the
handle — flushes the staged batch on DEFINED/PREPARED, panics on any state
other than IN_FLIGHT/REAPED/COMPLETED_SHARED/COMPLETED_LOCAL, and reclaims
eagerly and returns on COMPLETED_LOCAL; otherwise it enters the wait loop. -/
def pgaio_io_ref_wait (am_owner has_wait_one : Bool) (refgen : Nat) :
    List HandleObservation → RefWaitOutcome
  | [] => RefWaitOutcome.still_waiting
  | o :: rest =>
    if o.gen ≠ refgen then RefWaitOutcome.returned false
    else if am_owner then
      if o.state = PgAioHandleState.AHS_DEFINED ∨
          o.state = PgAioHandleState.AHS_PREPARED then
        pgaio_io_ref_wait_loop am_owner has_wait_one refgen rest
      else if o.state ≠ PgAioHandleState.AHS_IN_FLIGHT ∧
          o.state ≠ PgAioHandleState.AHS_REAPED ∧
          o.state ≠ PgAioHandleState.AHS_COMPLETED_SHARED ∧
          o.state ≠ PgAioHandleState.AHS_COMPLETED_LOCAL then
        RefWaitOutcome.wrong_state_panic
      else if o.state = PgAioHandleState.AHS_COMPLETED_LOCAL then
        RefWaitOutcome.returned true
      else
        pgaio_io_ref_wait_loop am_owner has_wait_one refgen rest
    else
      pgaio_io_ref_wait_loop am_owner has_wait_one refgen rest

/-- C3: pgaio_io_ref_wait returns without further effect as soon as an
observation (at entry, or at the head of any wait-loop turn) shows a
recycled reference; when the caller owns the handle and the entry
observation shows COMPLETED_LOCAL it reclaims the handle and returns; and a
wait-loop observation of IDLE or HANDED_OUT on a non-recycled reference
raises the wrong-state contract-violation error. -/
theorem pgaio_io_ref_wait_contract (am_owner has_wait_one : Bool) (refgen : Nat)
    (o : HandleObservation) (rest : List HandleObservation) :
    (o.gen ≠ refgen →
      pgaio_io_ref_wait am_owner has_wait_one refgen (o :: rest) =
        RefWaitOutcome.returned false ∧
      pgaio_io_ref_wait_loop am_owner has_wait_one refgen (o :: rest) =
        RefWaitOutcome.returned false) ∧
    (o.gen = refgen → o.state = PgAioHandleState.AHS_COMPLETED_LOCAL →
      pgaio_io_ref_wait true has_wait_one refgen (o :: rest) =
        RefWaitOutcome.returned true) ∧
    (o.gen = refgen →
      (o.state = PgAioHandleState.AHS_IDLE ∨
       o.state = PgAioHandleState.AHS_HANDED_OUT) →
      pgaio_io_ref_wait_loop am_owner has_wait_one refgen (o :: rest) =
        RefWaitOutcome.wrong_state_raised) := by
  refine ⟨?_, ?_, ?_⟩
  · intro hgen
    constructor
    · simp [pgaio_io_ref_wait, hgen]
    · simp [pgaio_io_ref_wait_loop, hgen]
  · intro hgen hstate
    simp [pgaio_io_ref_wait, hgen, hstate]
  · intro hgen hstate
    rcases hstate with hstate | hstate <;>
      simp [pgaio_io_ref_wait_loop, hgen, hstate]

/-- Witness for C3: a recycled entry observation returns immediately; an
owner seeing COMPLETED_LOCAL reclaims and returns; a wait-loop observation
of IDLE raises the wrong-state error. -/
theorem pgaio_io_ref_wait_contract_witness :
    pgaio_io_ref_wait false false 5
        [HandleObservation.mk 6 PgAioHandleState.AHS_IN_FLIGHT] =
      RefWaitOutcome.returned false ∧
    pgaio_io_ref_wait true false 5
        [HandleObservation.mk 5 PgAioHandleState.AHS_COMPLETED_LOCAL] =
      RefWaitOutcome.returned true ∧
    pgaio_io_ref_wait_loop false false 5
        [HandleObservation.mk 5 PgAioHandleState.AHS_IDLE] =
      RefWaitOutcome.wrong_state_raised :=
  ⟨((pgaio_io_ref_wait_contract false false 5
      (HandleObservation.mk 6 PgAioHandleState.AHS_IN_FLIGHT) []).1 (by decide)).1,
   (pgaio_io_ref_wait_contract true false 5
      (HandleObservation.mk 5 PgAioHandleState.AHS_COMPLETED_LOCAL) []).2.1 rfl rfl,
   (pgaio_io_ref_wait_contract false false 5
      (HandleObservation.mk 5 PgAioHandleState.AHS_IDLE) []).2.2 rfl (Or.inl rfl)⟩

/-- The per-backend view of the handle pool (PgAioPerBackend, restricted to
what governs hand-out): the states of the io_max_concurrency handles this
backend owns (indices relative to my_aio->io_handle_off; their owner_procno
is this backend and never changes), and my_aio->handed_out_io as an optional
index into that range. -/
structure PgAioPerBackend where
  handles : List PgAioHandleState
  handed_out_io : Option Nat
  deriving DecidableEq, Repr

/-- Index of the first IDLE handle, modelling the head of the
my_aio->idle_ios list (a handle is on idle_ios exactly when its state is
IDLE, spec invariant I3). -/
def firstIdleIdx : List PgAioHandleState → Option Nat
  | [] => none
  | st :: rest =>
    if st = PgAioHandleState.AHS_IDLE then some 0
    else (firstIdleIdx rest).map (· + 1)

/-- Embedding of pgaio_io_get_nb (aio.c:109-145): raise the API-violation
error when my_aio->handed_out_io is already set; otherwise pop the head of
idle_ios if the list is nonempty, mark that handle AHS_HANDED_OUT and record
it in handed_out_io; return none when every handle is in use.  (The
staged-batch flush at the top of the C function touches only staged
handles, not the hand-out bookkeeping.) -/
def pgaio_io_get_nb (s : PgAioPerBackend) :
    Except Unit (Option Nat × PgAioPerBackend) :=
  if s.handed_out_io.isSome then
    Except.error ()
  else
    match firstIdleIdx s.handles with
    | none => Except.ok (none, s)
    | some i =>
      Except.ok (some i,
        { handles := s.handles.set i PgAioHandleState.AHS_HANDED_OUT
          handed_out_io := some i })

/-- Embedding of the hand-out effects of pgaio_io_prepare (aio.c:491-521)
on handle i: the handle moves HANDED_OUT → AHS_DEFINED, handed_out_io is
cleared ("allow a new IO to be staged"), the subject prepare callbacks run,
and the handle is published as AHS_PREPARED (staging or synchronous
execution follow as separate transitions). -/
def pgaio_io_prepare (s : PgAioPerBackend) (i : Nat) : PgAioPerBackend :=
  let s1 : PgAioPerBackend :=
    { s with handles := s.handles.set i PgAioHandleState.AHS_DEFINED }
  let s2 : PgAioPerBackend := { s1 with handed_out_io := none }
  { s2 with handles := s2.handles.set i PgAioHandleState.AHS_PREPARED }

/-- Embedding of pgaio_io_release (aio.c:147-162): only the handle recorded
in handed_out_io may be released; it is reclaimed (back to IDLE) after the
hand-out slot is cleared; anything else raises elog(ERROR). -/
def pgaio_io_release (s : PgAioPerBackend) (i : Nat) :
    Except Unit PgAioPerBackend :=
  if s.handed_out_io = some i then
    Except.ok
      { handles := s.handles.set i PgAioHandleState.AHS_IDLE
        handed_out_io := none }
  else
    Except.error ()

/-- Embedding of the AHS_HANDED_OUT arm of pgaio_io_release_resowner
(aio.c:179-190): clear handed_out_io when it points at this handle, then
reclaim it (back to IDLE). -/
def pgaio_io_release_resowner_handed_out (s : PgAioPerBackend) (i : Nat) :
    PgAioPerBackend :=
  { handles := s.handles.set i PgAioHandleState.AHS_IDLE
    handed_out_io := if s.handed_out_io = some i then none else s.handed_out_io }

/-- The transitions a backend's handle-pool view can make.  Owner-driven
steps use the embedded functions above; submit is pgaio_io_prepare_submit
(aio.c:563-568, PREPARED → IN_FLIGHT); reap and complete_shared are the
publications of pgaio_io_process_completion (aio.c:526-550), performed by
whichever process observes the completion; complete_local is the owner-side
marking described by the spec state machine (§4.2; no code under src/
stores AHS_COMPLETED_LOCAL); reclaim_completed is pgaio_io_reclaim invoked
on a completed handle from pgaio_io_ref_wait, pgaio_io_ref_check_done or
pgaio_io_wait_for_free. -/
inductive PgAioStep : PgAioPerBackend → PgAioPerBackend → Prop
  | get_nb (s : PgAioPerBackend) (i : Nat) (s2 : PgAioPerBackend)
      (h : pgaio_io_get_nb s = Except.ok (some i, s2)) :
      PgAioStep s s2
  | prepare (s : PgAioPerBackend) (i : Nat)
      (h : s.handles.getD i PgAioHandleState.AHS_IDLE =
        PgAioHandleState.AHS_HANDED_OUT) :
      PgAioStep s (pgaio_io_prepare s i)
  | release (s : PgAioPerBackend) (i : Nat) (s2 : PgAioPerBackend)
      (h : pgaio_io_release s i = Except.ok s2) :
      PgAioStep s s2
  | release_resowner (s : PgAioPerBackend) (i : Nat)
      (h : s.handles.getD i PgAioHandleState.AHS_IDLE =
        PgAioHandleState.AHS_HANDED_OUT) :
      PgAioStep s (pgaio_io_release_resowner_handed_out s i)
  | submit (s : PgAioPerBackend) (i : Nat)
      (h : s.handles.getD i PgAioHandleState.AHS_IDLE =
        PgAioHandleState.AHS_PREPARED) :
      PgAioStep s
        { s with handles := s.handles.set i PgAioHandleState.AHS_IN_FLIGHT }
  | reap (s : PgAioPerBackend) (i : Nat)
      (h : s.handles.getD i PgAioHandleState.AHS_IDLE =
        PgAioHandleState.AHS_IN_FLIGHT) :
      PgAioStep s
        { s with handles := s.handles.set i PgAioHandleState.AHS_REAPED }
  | complete_shared (s : PgAioPerBackend) (i : Nat)
      (h : s.handles.getD i PgAioHandleState.AHS_IDLE =
        PgAioHandleState.AHS_REAPED) :
      PgAioStep s
        { s with
          handles := s.handles.set i PgAioHandleState.AHS_COMPLETED_SHARED }
  | complete_local (s : PgAioPerBackend) (i : Nat)
      (h : s.handles.getD i PgAioHandleState.AHS_IDLE =
        PgAioHandleState.AHS_COMPLETED_SHARED) :
      PgAioStep s
        { s with
          handles := s.handles.set i PgAioHandleState.AHS_COMPLETED_LOCAL }
  | reclaim_completed (s : PgAioPerBackend) (i : Nat)
      (h : s.handles.getD i PgAioHandleState.AHS_IDLE =
          PgAioHandleState.AHS_COMPLETED_SHARED ∨
        s.handles.getD i PgAioHandleState.AHS_IDLE =
          PgAioHandleState.AHS_COMPLETED_LOCAL) :
      PgAioStep s
        { s with handles := s.handles.set i PgAioHandleState.AHS_IDLE }

/-- The initial per-backend state at startup: every owned handle IDLE,
nothing handed out. -/
def initPerBackend (n : Nat) : PgAioPerBackend :=
  { handles := List.replicate n PgAioHandleState.AHS_IDLE
    handed_out_io := none }

/-- States of one backend's pool view reachable from startup. -/
inductive PgAioReachable (n : Nat) : PgAioPerBackend → Prop
  | init : PgAioReachable n (initPerBackend n)
  | step (s s2 : PgAioPerBackend) (h : PgAioReachable n s)
      (hs : PgAioStep s s2) : PgAioReachable n s2

/-- The hand-out invariant: a handle owned by this backend is in
AHS_HANDED_OUT exactly when handed_out_io records its index, and a recorded
index is always in range. -/
def HandedOutInv (s : PgAioPerBackend) : Prop :=
  (∀ (i : Nat) (h : i < s.handles.length),
    (s.handles[i] = PgAioHandleState.AHS_HANDED_OUT ↔ s.handed_out_io = some i)) ∧
  (∀ i : Nat, s.handed_out_io = some i → i < s.handles.length)

/-- A getD observation of AHS_HANDED_OUT implies the index is in range. -/
theorem getD_handed_out_lt {l : List PgAioHandleState} {i : Nat}
    (h : l.getD i PgAioHandleState.AHS_IDLE = PgAioHandleState.AHS_HANDED_OUT) :
    i < l.length := by
  by_contra hn
  push_neg at hn
  rw [List.getD_eq_getElem?_getD, List.getElem?_eq_none hn] at h
  exact absurd h (by decide)

/-- getD agrees with indexing when in range. -/
theorem getD_eq_getElem {l : List PgAioHandleState} {i : Nat} (h : i < l.length)
    (d : PgAioHandleState) : l.getD i d = l[i] := by
  simp [List.getD_eq_getElem?_getD, List.getElem?_eq_getElem h]

/-- firstIdleIdx finds an in-range index whose state is IDLE. -/
theorem firstIdleIdx_spec : ∀ (l : List PgAioHandleState) (i : Nat),
    firstIdleIdx l = some i →
    ∃ (h : i < l.length), l[i] = PgAioHandleState.AHS_IDLE
  | [], i => by
    intro h
    simp [firstIdleIdx] at h
  | st :: rest, i => by
    intro h
    unfold firstIdleIdx at h
    split at h
    · next hst =>
      obtain rfl : (0 : Nat) = i := Option.some.inj h
      exact ⟨Nat.succ_pos rest.length, hst⟩
    · next hst =>
      cases hr : firstIdleIdx rest with
      | none =>
        rw [hr] at h
        simp at h
      | some k =>
        rw [hr] at h
        have hik : k + 1 = i := by simpa using h
        obtain ⟨hk, hkE⟩ := firstIdleIdx_spec rest k hr
        subst hik
        exact ⟨Nat.succ_lt_succ hk, by simpa using hkE⟩

/-- Destructuring a successful hand-out by pgaio_io_get_nb. -/
theorem pgaio_io_get_nb_ok_some {s : PgAioPerBackend} {i : Nat}
    {s2 : PgAioPerBackend} (h : pgaio_io_get_nb s = Except.ok (some i, s2)) :
    s.handed_out_io = none ∧ firstIdleIdx s.handles = some i ∧
    s2 = { handles := s.handles.set i PgAioHandleState.AHS_HANDED_OUT
           handed_out_io := some i } := by
  unfold pgaio_io_get_nb at h
  split at h
  · exact absurd h (by simp)
  · next hns =>
    have hnone : s.handed_out_io = none := Option.not_isSome_iff_eq_none.mp hns
    split at h
    · simp at h
    · next k hk =>
      simp only [Except.ok.injEq, Prod.mk.injEq, Option.some.injEq] at h
      obtain ⟨rfl, h2⟩ := h
      exact ⟨hnone, hk, h2.symm⟩

/-- Invariant preservation: handing out the first idle handle. -/
theorem HandedOutInv.get_nb {s : PgAioPerBackend} {i : Nat}
    {s2 : PgAioPerBackend} (hInv : HandedOutInv s)
    (h : pgaio_io_get_nb s = Except.ok (some i, s2)) : HandedOutInv s2 := by
  obtain ⟨hnone, hfirst, rfl⟩ := pgaio_io_get_nb_ok_some h
  obtain ⟨hi, _hIdle⟩ := firstIdleIdx_spec s.handles i hfirst
  constructor
  · intro j hj
    simp only [List.length_set] at hj
    simp only [List.getElem_set]
    by_cases hij : i = j
    · subst hij
      simp
    · rw [if_neg hij]
      constructor
      · intro hEq
        have hcontra := (hInv.1 j hj).mp hEq
        rw [hnone] at hcontra
        exact absurd hcontra (by simp)
      · intro hEq
        exact absurd (Option.some.inj hEq) hij
  · intro j hj
    simp only [List.length_set]
    obtain rfl : i = j := Option.some.inj hj
    exact hi

/-- Invariant preservation: moving the handed-out handle to a state other
than AHS_HANDED_OUT while clearing handed_out_io. -/
theorem HandedOutInv.set_clear {s : PgAioPerBackend} {i : Nat}
    {x : PgAioHandleState} (hInv : HandedOutInv s)
    (hcur : s.handles.getD i PgAioHandleState.AHS_IDLE =
      PgAioHandleState.AHS_HANDED_OUT)
    (hx : x ≠ PgAioHandleState.AHS_HANDED_OUT) :
    HandedOutInv { handles := s.handles.set i x, handed_out_io := none } := by
  have hi : i < s.handles.length := getD_handed_out_lt hcur
  have hcur2 : s.handles[i] = PgAioHandleState.AHS_HANDED_OUT := by
    rw [← getD_eq_getElem hi]
    exact hcur
  have ho : s.handed_out_io = some i := (hInv.1 i hi).mp hcur2
  constructor
  · intro j hj
    simp only [List.length_set] at hj
    simp only [List.getElem_set]
    constructor
    · intro hEq
      by_cases hij : i = j
      · rw [if_pos hij] at hEq
        exact absurd hEq hx
      · rw [if_neg hij] at hEq
        have hoj := (hInv.1 j hj).mp hEq
        rw [ho] at hoj
        exact absurd (Option.some.inj hoj) hij
    · intro hEq
      exact absurd hEq (by simp)
  · intro j hj
    exact absurd hj (by simp)

/-- Invariant preservation: moving a handle that is not handed out to a
state other than AHS_HANDED_OUT, leaving handed_out_io unchanged. -/
theorem HandedOutInv.set_keep {s : PgAioPerBackend} {i : Nat}
    {x : PgAioHandleState} (hInv : HandedOutInv s)
    (hcur : s.handles.getD i PgAioHandleState.AHS_IDLE ≠
      PgAioHandleState.AHS_HANDED_OUT)
    (hx : x ≠ PgAioHandleState.AHS_HANDED_OUT) :
    HandedOutInv
      { handles := s.handles.set i x, handed_out_io := s.handed_out_io } := by
  constructor
  · intro j hj
    simp only [List.length_set] at hj
    simp only [List.getElem_set]
    by_cases hij : i = j
    · subst hij
      rw [if_pos rfl]
      constructor
      · intro hEq
        exact absurd hEq hx
      · intro hEq
        have hcur2 : s.handles[i] = PgAioHandleState.AHS_HANDED_OUT :=
          (hInv.1 i hj).mpr hEq
        rw [← getD_eq_getElem hj] at hcur2
        exact absurd hcur2 hcur
    · rw [if_neg hij]
      exact hInv.1 j hj
  · intro j hj
    simp only [List.length_set]
    exact hInv.2 j hj

/-- Every pool transition preserves the hand-out invariant. -/
theorem PgAioStep.preserves {s s2 : PgAioPerBackend} (hs : PgAioStep s s2)
    (hInv : HandedOutInv s) : HandedOutInv s2 := by
  cases hs with
  | get_nb i s2 h => exact hInv.get_nb h
  | prepare i h =>
    unfold pgaio_io_prepare
    simp only [List.set_set]
    exact hInv.set_clear h (by decide)
  | release i s2 h =>
    unfold pgaio_io_release at h
    split at h
    · next ho =>
      have hi : i < s.handles.length := hInv.2 i ho
      have hcur : s.handles.getD i PgAioHandleState.AHS_IDLE =
          PgAioHandleState.AHS_HANDED_OUT := by
        rw [getD_eq_getElem hi]
        exact (hInv.1 i hi).mpr ho
      obtain rfl := Except.ok.inj h
      exact hInv.set_clear hcur (by decide)
    · exact absurd h (by simp)
  | release_resowner i h =>
    have hi : i < s.handles.length := getD_handed_out_lt h
    have ho : s.handed_out_io = some i := by
      apply (hInv.1 i hi).mp
      rw [← getD_eq_getElem hi]
      exact h
    unfold pgaio_io_release_resowner_handed_out
    rw [if_pos ho]
    exact hInv.set_clear h (by decide)
  | submit i h =>
    exact hInv.set_keep (by rw [h]; decide) (by decide)
  | reap i h =>
    exact hInv.set_keep (by rw [h]; decide) (by decide)
  | complete_shared i h =>
    exact hInv.set_keep (by rw [h]; decide) (by decide)
  | complete_local i h =>
    exact hInv.set_keep (by rw [h]; decide) (by decide)
  | reclaim_completed i h =>
    rcases h with h | h
    · exact hInv.set_keep (by rw [h]; decide) (by decide)
    · exact hInv.set_keep (by rw [h]; decide) (by decide)

/-- The startup state satisfies the hand-out invariant. -/
theorem initPerBackend_inv (n : Nat) : HandedOutInv (initPerBackend n) := by
  constructor
  · intro i hi
    simp only [initPerBackend] at hi ⊢
    constructor
    · intro hEq
      rw [List.getElem_replicate] at hEq
      exact absurd hEq (by decide)
    · intro hEq
      simp at hEq
  · intro i hi
    simp [initPerBackend] at hi

/-- Every reachable state satisfies the hand-out invariant. -/
theorem PgAioReachable.handed_out_inv {n : Nat} {s : PgAioPerBackend}
    (h : PgAioReachable n s) : HandedOutInv s := by
  induction h with
  | init => exact initPerBackend_inv n
  | step s s2 _hr hs ih => exact hs.preserves ih

/-- A list in which AHS_HANDED_OUT occurs at no two distinct positions has
at most one AHS_HANDED_OUT element. -/
theorem countP_handed_out_le_one (l : List PgAioHandleState)
    (h : ∀ (i j : Nat) (hi : i < l.length) (hj : j < l.length),
      l[i] = PgAioHandleState.AHS_HANDED_OUT →
      l[j] = PgAioHandleState.AHS_HANDED_OUT → i = j) :
    l.countP (fun st => st == PgAioHandleState.AHS_HANDED_OUT) ≤ 1 := by
  induction l with
  | nil => simp
  | cons a t ih =>
    rw [List.countP_cons]
    by_cases ha : a = PgAioHandleState.AHS_HANDED_OUT
    · have ht : t.countP (fun st => st == PgAioHandleState.AHS_HANDED_OUT) = 0 := by
        rw [List.countP_eq_zero]
        intro b hb hbeq
        have hbHO : b = PgAioHandleState.AHS_HANDED_OUT := by
          exact eq_of_beq hbeq
        rcases List.mem_iff_getElem.mp hb with ⟨k, hk, hbk⟩
        have hcontra := h (k + 1) 0 (by simpa using Nat.succ_lt_succ hk)
          (by simp) (by simpa using hbk.trans hbHO) (by simpa using ha)
        exact absurd hcontra (Nat.succ_ne_zero k)
      rw [ht]
      simp [ha]
    · have hfalse : (a == PgAioHandleState.AHS_HANDED_OUT) = false := by
        simp [ha]
      rw [hfalse]
      simp only [Bool.false_eq_true, if_false, Nat.add_zero]
      apply ih
      intro i j hi hj hI hJ
      have hcontra := h (i + 1) (j + 1) (by simpa using Nat.succ_lt_succ hi)
        (by simpa using Nat.succ_lt_succ hj) (by simpa using hI)
        (by simpa using hJ)
      omega

/-- C1: in every reachable per-backend state, at most one handle owned by
this backend is in AHS_HANDED_OUT; pgaio_io_get_nb raises the API-violation
error when handed_out_io is already set and records the newly handed-out
handle in handed_out_io; and pgaio_io_prepare clears handed_out_io when the
handle leaves AHS_HANDED_OUT. -/
theorem pgaio_handed_out_unique (n : Nat) :
    (∀ s : PgAioPerBackend, PgAioReachable n s →
      s.handles.countP (fun st => st == PgAioHandleState.AHS_HANDED_OUT) ≤ 1) ∧
    (∀ s : PgAioPerBackend, s.handed_out_io.isSome →
      pgaio_io_get_nb s = Except.error ()) ∧
    (∀ (s : PgAioPerBackend) (i : Nat) (s2 : PgAioPerBackend),
      pgaio_io_get_nb s = Except.ok (some i, s2) →
      s2.handed_out_io = some i) ∧
    (∀ (s : PgAioPerBackend) (i : Nat),
      (pgaio_io_prepare s i).handed_out_io = none) := by
  refine ⟨?_, ?_, ?_, ?_⟩
  · intro s hr
    have hInv := hr.handed_out_inv
    apply countP_handed_out_le_one
    intro i j hi hj hI hJ
    have h1 := (hInv.1 i hi).mp hI
    have h2 := (hInv.1 j hj).mp hJ
    rw [h1] at h2
    exact Option.some.inj h2
  · intro s hsome
    unfold pgaio_io_get_nb
    rw [if_pos hsome]
  · intro s i s2 h
    obtain ⟨-, -, rfl⟩ := pgaio_io_get_nb_ok_some h
    rfl
  · intro s i
    rfl

/-- The state reached from a fresh two-handle backend by one successful
pgaio_io_get_nb. -/
def afterOneGet : PgAioPerBackend :=
  { handles := [PgAioHandleState.AHS_HANDED_OUT, PgAioHandleState.AHS_IDLE]
    handed_out_io := some 0 }

/-- Witness for C1: after one hand-out from a fresh two-handle backend the
count of handed-out handles is at most one, a second pgaio_io_get_nb raises
the API-violation error, and pgaio_io_prepare of the handed-out handle
clears handed_out_io. -/
theorem pgaio_handed_out_unique_witness :
    (afterOneGet.handles.countP
      (fun st => st == PgAioHandleState.AHS_HANDED_OUT) ≤ 1) ∧
    pgaio_io_get_nb afterOneGet = Except.error () ∧
    (pgaio_io_prepare afterOneGet 0).handed_out_io = none :=
  ⟨(pgaio_handed_out_unique 2).1 afterOneGet
      (PgAioReachable.step (initPerBackend 2) afterOneGet PgAioReachable.init
        (PgAioStep.get_nb (initPerBackend 2) 0 afterOneGet rfl)),
   (pgaio_handed_out_unique 2).2.1 afterOneGet rfl,
   (pgaio_handed_out_unique 2).2.2.2 afterOneGet 0⟩

/-- InvalidBlockNumber, the uint32 sentinel block number. -/
def InvalidBlockNumber : Int := 4294967295

/-- InvalidBuffer; valid buffer ids are positive. -/
def InvalidBuffer : Int := 0

/-- The StreamingRead object (streaming_read.c:96-140).  The int16 counters
are modelled as unbounded Int (the stream bounds them by max_pinned_buffers
and max_ios, far below 2^15, and `distance` is assigned -1 on one path, so a
signed type is required); block numbers are Int with the uint32 sentinel
above.  per_buffer_data is caller-opaque storage the stream never reads and
is not modelled; the ios[] array of ReadBuffersOperation objects is modelled
by the one field of an operation the stream reads back, the
READ_BUFFERS_ISSUE_ADVICE flag StartReadBuffers stored into it
(ios_advice). -/
structure StreamingRead where
  max_ios : Int
  ios_in_progress : Int
  max_pinned_buffers : Int
  pinned_buffers : Int
  distance : Int
  advice_enabled : Bool
  have_unget_blocknum : Bool
  unget_blocknum : Int
  seq_blocknum : Int
  pending_read_blocknum : Int
  pending_read_nblocks : Int
  next_io_index : Int
  oldest_buffer_index : Int
  next_buffer_index : Int
  buffers : List Int
  buffer_io_indexes : List Int
  ios_advice : List Bool
  deriving DecidableEq, Repr

/-- One StartReadBuffers (or StartReadBuffer) outcome supplied by the buffer
manager: how many blocks it pinned (the in/out nblocks may come back
smaller), whether the caller must call WaitReadBuffers, and the buffer ids
it wrote into the caller's slots. -/
structure StartReadOutcome where
  nblocks : Int
  need_wait : Bool
  bufs : List Int
  deriving DecidableEq, Repr

/-- The environment of a stream: the block numbers the client callback will
return (exhaustion means InvalidBlockNumber, the end-of-stream sentinel) and
the successive buffer-manager outcomes. -/
structure SREnv where
  cb_blocks : List Int
  reads : List StartReadOutcome
  deriving DecidableEq, Repr

/-- Consume the next callback value; an exhausted callback returns the
sentinel. -/
def SREnv.nextBlock (env : SREnv) : Int × SREnv :=
  match env.cb_blocks with
  | [] => (InvalidBlockNumber, env)
  | b :: rest => (b, { env with cb_blocks := rest })

/-- Consume the next buffer-manager outcome; when the supplied list is
exhausted the read is treated as fully pinned and already cached. -/
def SREnv.nextRead (env : SREnv) (req : Int) : StartReadOutcome × SREnv :=
  match env.reads with
  | [] => ({ nblocks := req, need_wait := false, bufs := [] }, env)
  | r :: rest => (r, { env with reads := rest })

/-- Record of one StartReadBuffers invocation: the starting block, the
requested and returned nblocks, the need-wait result and whether the
READ_BUFFERS_ISSUE_ADVICE flag was passed. -/
structure SRBCall where
  blocknum : Int
  req_nblocks : Int
  ret_nblocks : Int
  need_wait : Bool
  advice : Bool
  deriving DecidableEq, Repr

/-- Write a run of values into consecutive list positions, modelling
StartReadBuffers filling &buffers[buffer_index..]. -/
def writeSlice (l : List Int) (start : Nat) : List Int → List Int
  | [] => l
  | v :: rest => writeSlice (l.set start v) (start + 1) rest

/-- The memmove of streaming_read_start_pending_read (streaming_read.c:
266-272): slide the buffers that overflowed past max_pinned_buffers to the
front of the array. -/
def slideOverflow (l : List Int) (maxPinned overflow : Nat) : List Int :=
  (List.range overflow).foldl (fun acc j => acc.set j (l.getD (maxPinned + j) 0)) l

/-- Embedding of streaming_read_get_block (streaming_read.c:156-172): return
the pushed-back block if there is one (clearing the slot), otherwise ask the
client callback. -/
def streaming_read_get_block (s : StreamingRead) (env : SREnv) :
    Int × StreamingRead × SREnv :=
  if !s.have_unget_blocknum then
    let r := env.nextBlock
    (r.1, s, r.2)
  else
    (s.unget_blocknum, { s with have_unget_blocknum := false }, env)

/-- Embedding of streaming_read_unget_block (streaming_read.c:178-184):
push one block number back in front of the callback. -/
def streaming_read_unget_block (s : StreamingRead) (blocknum : Int) :
    StreamingRead :=
  { s with have_unget_blocknum := true, unget_blocknum := blocknum }

/-- Embedding of streaming_read_start_pending_read (streaming_read.c:
186-291): issue StartReadBuffers for the pending range (with advice when
enabled and the range does not extend the previous read), account the pinned
buffers, remember the I/O slot when a wait will be needed, slide ring
overflow to the front, advance seq_blocknum / next_buffer_index, and shrink
the pending read by what was pinned.  Returns the new stream, environment
and the call log extended by this invocation. -/
def streaming_read_start_pending_read (s : StreamingRead) (env : SREnv)
    (calls : List SRBCall) : StreamingRead × SREnv × List SRBCall :=
  let advice : Bool := s.advice_enabled && (s.pending_read_blocknum != s.seq_blocknum)
  let buffer_index := s.next_buffer_index
  let io_index := s.next_io_index
  let blocknum := s.pending_read_blocknum
  let req := s.pending_read_nblocks
  let r := env.nextRead req
  let out := r.1
  let env2 := r.2
  let nblocks := out.nblocks
  let s2 := { s with
    buffers := writeSlice s.buffers buffer_index.toNat out.bufs
    pinned_buffers := s.pinned_buffers + nblocks }
  let s3 :=
    if !out.need_wait then
      if s2.distance > 1 then { s2 with distance := s2.distance - 1 } else s2
    else
      { s2 with
        buffer_io_indexes :=
          s2.buffer_io_indexes.set buffer_index.toNat io_index
        ios_advice := s2.ios_advice.set io_index.toNat advice
        next_io_index := if io_index + 1 = s2.max_ios then 0 else io_index + 1
        ios_in_progress := s2.ios_in_progress + 1 }
  let overflow := (buffer_index + nblocks) - s3.max_pinned_buffers
  let s4 :=
    if overflow > 0 then
      { s3 with
        buffers := slideOverflow s3.buffers s3.max_pinned_buffers.toNat
          overflow.toNat }
    else s3
  let s5 := { s4 with seq_blocknum := blocknum + nblocks }
  let buffer_index2 := buffer_index + nblocks
  let buffer_index3 :=
    if buffer_index2 ≥ s5.max_pinned_buffers then
      buffer_index2 - s5.max_pinned_buffers
    else buffer_index2
  let s6 := { s5 with
    next_buffer_index := buffer_index3
    pending_read_blocknum := blocknum + nblocks
    pending_read_nblocks := s5.pending_read_nblocks - nblocks }
  (s6, env2, calls ++
    [{ blocknum := blocknum, req_nblocks := req, ret_nblocks := nblocks,
       need_wait := out.need_wait, advice := advice }])

/-- The while loop of streaming_read_look_ahead (streaming_read.c:296-348),
with explicit fuel for the finitely many turns a theorem exercises.  The
Bool in the result records whether the loop RETURNED out of the enclosing
function (the unget path, lines 337-342), as opposed to exiting the loop
normally (condition false, or the sentinel break). -/
def streaming_read_look_ahead_loop (io_size : Int) :
    Nat → StreamingRead → SREnv → List SRBCall →
    Option (StreamingRead × SREnv × List SRBCall × Bool)
  | 0, _, _, _ => none
  | Nat.succ fuel, s, env, calls =>
    if s.ios_in_progress < s.max_ios ∧
        s.pinned_buffers + s.pending_read_nblocks < s.distance then
      if s.pending_read_nblocks = io_size then
        let r := streaming_read_start_pending_read s env calls
        streaming_read_look_ahead_loop io_size fuel r.1 r.2.1 r.2.2
      else
        let slot := s.next_buffer_index + s.pending_read_nblocks
        let _slot2 :=
          if slot > s.max_pinned_buffers then slot - s.max_pinned_buffers
          else slot
        let g := streaming_read_get_block s env
        let blocknum := g.1
        let s2 := g.2.1
        let env2 := g.2.2
        if blocknum = InvalidBlockNumber then
          some ({ s2 with distance := 0 }, env2, calls, false)
        else if s2.pending_read_nblocks > 0 ∧
            s2.pending_read_blocknum + s2.pending_read_nblocks = blocknum then
          streaming_read_look_ahead_loop io_size fuel
            { s2 with pending_read_nblocks := s2.pending_read_nblocks + 1 }
            env2 calls
        else if s2.pending_read_nblocks > 0 then
          let r := streaming_read_start_pending_read s2 env2 calls
          if r.1.ios_in_progress = r.1.max_ios then
            some (streaming_read_unget_block r.1 blocknum, r.2.1, r.2.2, true)
          else
            streaming_read_look_ahead_loop io_size fuel
              { r.1 with pending_read_blocknum := blocknum,
                         pending_read_nblocks := 1 }
              r.2.1 r.2.2
        else
          streaming_read_look_ahead_loop io_size fuel
            { s2 with pending_read_blocknum := blocknum,
                      pending_read_nblocks := 1 }
            env2 calls
    else
      some (s, env, calls, false)

/-- Embedding of streaming_read_look_ahead (streaming_read.c:293-361): run
the look-ahead loop, then — unless the loop returned out on the unget
path — start the pending read immediately when its size already matches the
distance or the distance is zero and the I/O budget allows. -/
def streaming_read_look_ahead (io_size : Int) (fuel : Nat) (s : StreamingRead)
    (env : SREnv) (calls : List SRBCall) :
    Option (StreamingRead × SREnv × List SRBCall) :=
  match streaming_read_look_ahead_loop io_size fuel s env calls with
  | none => none
  | some (s2, env2, calls2, returned) =>
    if returned then some (s2, env2, calls2)
    else if s2.pending_read_nblocks > 0 ∧
        (s2.distance = s2.pending_read_nblocks ∨ s2.distance = 0) ∧
        s2.ios_in_progress < s2.max_ios then
      let r := streaming_read_start_pending_read s2 env2 calls2
      some (r.1, r.2.1, r.2.2)
    else
      some (s2, env2, calls2)

/-- Embedding of the I/O-wait block of streaming_read_buffer_next
(streaming_read.c:614-657): WaitReadBuffers on the recorded operation (an
external effect), clear the slot's buffer_io_indexes entry, decrement
ios_in_progress, then adjust the look-ahead distance: with advice the
distance doubles up to max_pinned_buffers (behavior C); without advice it
decays by one while above buffer_io_size, else doubles clamped to
buffer_io_size and max_pinned_buffers (behavior B). -/
def streaming_read_wait_branch (io_size : Int) (s : StreamingRead)
    (io_index : Int) : StreamingRead :=
  let s2 := { s with
    buffer_io_indexes :=
      s.buffer_io_indexes.set s.oldest_buffer_index.toNat (-1)
    ios_in_progress := s.ios_in_progress - 1 }
  if s2.ios_advice.getD io_index.toNat false then
    let distance := s2.distance * 2
    let distance := min distance s2.max_pinned_buffers
    { s2 with distance := distance }
  else
    if s2.distance > io_size then
      { s2 with distance := s2.distance - 1 }
    else
      let distance := s2.distance * 2
      let distance := min distance io_size
      let distance := min distance s2.max_pinned_buffers
      { s2 with distance := distance }

/-- The tail of streaming_read_buffer_next's slow path (streaming_read.c:
602-680): grab the oldest pinned buffer, wait for its I/O when the slot
records one, transfer the pin to the caller, advance the ring head, and
look ahead for the next call. -/
def streaming_read_buffer_next_rest (io_size : Int) (fuel : Nat)
    (s : StreamingRead) (env : SREnv) (calls : List SRBCall) :
    Option (Int × StreamingRead × SREnv × List SRBCall) :=
  let oldest_buffer_index := s.oldest_buffer_index
  let buffer := s.buffers.getD oldest_buffer_index.toNat 0
  let io_index := s.buffer_io_indexes.getD oldest_buffer_index.toNat (-1)
  let s2 :=
    if s.ios_in_progress > 0 ∧ io_index ≥ 0 then
      streaming_read_wait_branch io_size s io_index
    else s
  let s3 := { s2 with pinned_buffers := s2.pinned_buffers - 1 }
  let s4 := { s3 with
    oldest_buffer_index :=
      if s3.oldest_buffer_index + 1 = s3.max_pinned_buffers then 0
      else s3.oldest_buffer_index + 1 }
  match streaming_read_look_ahead io_size fuel s4 env calls with
  | none => none
  | some (s5, env5, calls5) => some (buffer, s5, env5, calls5)

/-- Embedding of streaming_read_buffer_next (streaming_read.c:526-681).
The fast path (lines 539-579) serves the single pinned buffer of an
all-cached stream from the same slot, probing the next block with
StartReadBuffer; on the sentinel it stores distance := -1 and transfers the
pin.  The slow path drains the pinned ring, waiting and adjusting distance
as needed, and returns InvalidBuffer when the stream is exhausted
(pinned_buffers = 0 with distance = 0).  want_per_buffer_data models
whether the caller passed a per_buffer_data out-pointer. -/
def streaming_read_buffer_next (io_size : Int) (fuel : Nat)
    (s : StreamingRead) (env : SREnv) (calls : List SRBCall)
    (want_per_buffer_data : Bool) :
    Option (Int × StreamingRead × SREnv × List SRBCall) :=
  if !want_per_buffer_data ∧ s.ios_in_progress = 0 ∧ s.pinned_buffers = 1 ∧
      s.distance = 1 then
    let oldest_buffer_index := s.oldest_buffer_index
    let buffer := s.buffers.getD oldest_buffer_index.toNat 0
    let g := streaming_read_get_block s env
    let next_blocknum := g.1
    let s2 := g.2.1
    let env2 := g.2.2
    if next_blocknum = InvalidBlockNumber then
      some (buffer, { s2 with distance := -1, pinned_buffers := 0 }, env2,
        calls)
    else
      let r := env2.nextRead 1
      let out := r.1
      let env3 := r.2
      let s3 := { s2 with
        buffers := writeSlice s2.buffers oldest_buffer_index.toNat
          (out.bufs.take 1)
        ios_advice := s2.ios_advice.set 0 s2.advice_enabled }
      if out.need_wait then
        some (buffer,
          { s3 with
            buffer_io_indexes :=
              s3.buffer_io_indexes.set oldest_buffer_index.toNat 0
            ios_in_progress := 1
            next_io_index := 1
            seq_blocknum := next_blocknum + 1
            distance := min 2 s3.max_pinned_buffers },
          env3, calls)
      else
        some (buffer, s3, env3, calls)
  else if s.pinned_buffers = 0 then
    if s.distance = 0 then
      some (InvalidBuffer, s, env, calls)
    else
      match streaming_read_look_ahead io_size fuel s env calls with
      | none => none
      | some (s1, env1, calls1) =>
        if s1.distance = 0 then
          some (InvalidBuffer, s1, env1, calls1)
        else
          streaming_read_buffer_next_rest io_size fuel s1 env1 calls1
  else
    streaming_read_buffer_next_rest io_size fuel s env calls

/-- A concrete stream state used to instantiate streaming theorems: one
pinned buffer (id 17) in a 4-slot ring, no I/O in progress, distance 1. -/
def fastPathStream : StreamingRead :=
  { max_ios := 1
    ios_in_progress := 0
    max_pinned_buffers := 4
    pinned_buffers := 1
    distance := 1
    advice_enabled := false
    have_unget_blocknum := false
    unget_blocknum := 0
    seq_blocknum := 101
    pending_read_blocknum := 0
    pending_read_nblocks := 0
    next_io_index := 0
    oldest_buffer_index := 0
    next_buffer_index := 0
    buffers := [17, 0, 0, 0]
    buffer_io_indexes := [-1, -1, -1, -1]
    ios_advice := [false] }

/-- An environment whose callback is exhausted (it returns the sentinel) and
whose buffer manager is never consulted. -/
def emptyEnv : SREnv := { cb_blocks := [], reads := [] }

/-- C10: with no block pushed back, streaming_read_unget_block followed by
streaming_read_get_block returns exactly the pushed-back block, consults no
callback (the environment is untouched), and resets have_unget_blocknum to
false; the single unget slot holds the one pushed-back block. -/
theorem streaming_read_unget_get_identity (s : StreamingRead) (b : Int)
    (env : SREnv) (h : s.have_unget_blocknum = false) :
    streaming_read_get_block (streaming_read_unget_block s b) env =
      (b, { s with unget_blocknum := b }, env) ∧
    (streaming_read_unget_block s b).have_unget_blocknum = true ∧
    (streaming_read_unget_block s b).unget_blocknum = b ∧
    ({ s with unget_blocknum := b } : StreamingRead).have_unget_blocknum =
      false := by
  refine ⟨?_, rfl, rfl, h⟩
  simp [streaming_read_get_block, streaming_read_unget_block, h]

/-- Witness for C10 at the concrete stream above with block 42. -/
theorem streaming_read_unget_get_identity_witness :
    streaming_read_get_block (streaming_read_unget_block fastPathStream 42)
        emptyEnv =
      (42, { fastPathStream with unget_blocknum := 42 }, emptyEnv) ∧
    (streaming_read_unget_block fastPathStream 42).have_unget_blocknum =
      true ∧
    (streaming_read_unget_block fastPathStream 42).unget_blocknum = 42 ∧
    ({ fastPathStream with unget_blocknum := 42 } :
      StreamingRead).have_unget_blocknum = false :=
  streaming_read_unget_get_identity fastPathStream 42 emptyEnv rfl

/-- The distance update of spec §4.7, written from the spec's words: with
advice D becomes min(2D, D_max); otherwise D decays by one while above D_io,
else becomes min(min(2D, D_io), D_max). -/
def look_ahead_distance_spec (advice : Bool) (d io_size maxPinned : Int) :
    Int :=
  if advice then min (2 * d) maxPinned
  else if d > io_size then d - 1
  else min (min (2 * d) io_size) maxPinned

/-- C8: when streaming_read_buffer_next waits for the oldest buffer's
recorded I/O (the streaming_read_wait_branch arm of its slow path), the new
distance is exactly the spec's update — doubled and clamped to
max_pinned_buffers when the I/O was issued with advice, else decremented
when above buffer_io_size and otherwise doubled and clamped to
buffer_io_size and max_pinned_buffers — and ios_in_progress drops by one. -/
theorem streaming_read_distance_after_wait (io_size : Int)
    (s : StreamingRead) (io_index : Int) :
    (streaming_read_wait_branch io_size s io_index).distance =
      look_ahead_distance_spec (s.ios_advice.getD io_index.toNat false)
        s.distance io_size s.max_pinned_buffers ∧
    (streaming_read_wait_branch io_size s io_index).ios_in_progress =
      s.ios_in_progress - 1 := by
  constructor
  · simp only [streaming_read_wait_branch, look_ahead_distance_spec]
    split_ifs <;> simp [Int.mul_comm]
  · simp only [streaming_read_wait_branch]
    split_ifs <;> rfl

/-- fastPathStream just before the slow path would signal end-of-stream. -/
def drainedStream : StreamingRead :=
  { fastPathStream with
    pinned_buffers := 0
    distance := 2 }

/-- The state the fast path leaves behind at end-of-stream: distance -1,
nothing pinned. -/
def afterFastSentinel : StreamingRead :=
  { fastPathStream with
    distance := -1
    pinned_buffers := 0 }

/-- The state one further streaming_read_buffer_next call produces from
afterFastSentinel: the pin count has gone negative. -/
def afterFastSentinel2 : StreamingRead :=
  { fastPathStream with
    distance := -1
    pinned_buffers := -1
    oldest_buffer_index := 1 }

/-- C6 (failing input): the look-ahead loop does set distance := 0 on the
sentinel, but the all-cached fast path of streaming_read_buffer_next stores
distance := -1 instead (streaming_read.c:557).  Since every end-of-stream
test in the function is `distance == 0`, the next call does not return
InvalidBuffer as the function's contract promises: it hands back the very
buffer it already returned (whose pin was already transferred) and drives
pinned_buffers to -1. -/
theorem streaming_read_fast_path_sentinel_bug :
    streaming_read_look_ahead 8 4 drainedStream emptyEnv [] =
      some ({ drainedStream with distance := 0 }, emptyEnv, []) ∧
    streaming_read_buffer_next 8 4 fastPathStream emptyEnv [] false =
      some (17, afterFastSentinel, emptyEnv, []) ∧
    afterFastSentinel.distance ≠ 0 ∧
    streaming_read_buffer_next 8 4 afterFastSentinel emptyEnv [] false =
      some (17, afterFastSentinel2, emptyEnv, []) ∧
    (17 : Int) ≠ InvalidBuffer := by
  refine ⟨by decide, by decide, by decide, by decide, by decide⟩

/-- A fresh stream as streaming_read_buffer_begin builds it (distance 1, an
8-slot ring, two I/O slots, advice disabled). -/
def freshStream : StreamingRead :=
  { max_ios := 2
    ios_in_progress := 0
    max_pinned_buffers := 8
    pinned_buffers := 0
    distance := 1
    advice_enabled := false
    have_unget_blocknum := false
    unget_blocknum := 0
    seq_blocknum := 0
    pending_read_blocknum := 0
    pending_read_nblocks := 0
    next_io_index := 0
    oldest_buffer_index := 0
    next_buffer_index := 0
    buffers := [0, 0, 0, 0, 0, 0, 0, 0]
    buffer_io_indexes := [-1, -1, -1, -1, -1, -1, -1, -1]
    ios_advice := [false, false] }

/-- An environment for a run of two consecutive uncached blocks 10, 11: both
reads pin one buffer and need a wait. -/
def twoBlockEnv : SREnv :=
  { cb_blocks := [10, 11]
    reads :=
      [{ nblocks := 1, need_wait := true, bufs := [5] },
       { nblocks := 1, need_wait := true, bufs := [6] }] }

/-- C7 counterexample: at the stream's initial distance of 1, consuming the
consecutive run 10, 11 (k = 2 ≤ buffer_io_size = 8, no intervening
non-consecutive block) issues TWO StartReadBuffers calls, one per block,
not one for the run: the look-ahead distance bounds how far the pending
read can grow before it must be started. -/
theorem streaming_read_merge_split_counterexample :
    (streaming_read_buffer_next 8 8 freshStream twoBlockEnv [] false).map
        (fun r => ((r.2.2.2).map SRBCall.blocknum, (r.2.2.2).length)) =
      some ([10, 11], 2) ∧
    (2 : Nat) ≠ 1 := by
  refine ⟨by decide, by decide⟩

/-- The block-number run b, b+1, ..., b+k-1 that a merge-law callback
returns. -/
def consecutiveRun (b : Int) : Nat → List Int
  | 0 => []
  | Nat.succ r => b :: consecutiveRun (b + 1) r

/-- One merge turn of the look-ahead loop: with j blocks of the run already
merged into the pending read (1 ≤ j < k ≤ both buffer_io_size and the
distance), the next callback block b+j extends the pending read by one and
no read is started. -/
theorem merge_loop_step (io_size b : Int) (k : Nat) (w : Bool)
    (bufs : List Int) (s : StreamingRead) (fuel : Nat) (j : Nat)
    (calls : List SRBCall)
    (hio : s.ios_in_progress = 0) (hpi : s.pinned_buffers = 0)
    (hmx : 0 < s.max_ios) (hug : s.have_unget_blocknum = false)
    (hdist : (k : Int) ≤ s.distance) (hks : (k : Int) ≤ io_size)
    (hb0 : 0 ≤ b) (hbk : b + (k : Int) ≤ InvalidBlockNumber)
    (hj1 : 1 ≤ j) (hjk : j < k) :
    streaming_read_look_ahead_loop io_size (fuel + 1)
        { s with
          pending_read_blocknum := b
          pending_read_nblocks := (j : Int) }
        { cb_blocks := consecutiveRun (b + (j : Int)) (k - j)
          reads := [⟨(k : Int), w, bufs⟩] } calls =
      streaming_read_look_ahead_loop io_size fuel
        { s with
          pending_read_blocknum := b
          pending_read_nblocks := (j : Int) + 1 }
        { cb_blocks := consecutiveRun (b + (j : Int) + 1) (k - j - 1)
          reads := [⟨(k : Int), w, bufs⟩] } calls := by
  rw [show k - j = (k - j - 1) + 1 from by omega]
  simp only [streaming_read_look_ahead_loop, consecutiveRun,
    streaming_read_get_block, SREnv.nextBlock, hug, Bool.not_false, if_true]
  rw [if_pos (show s.ios_in_progress < s.max_ios ∧
      s.pinned_buffers + (j : Int) < s.distance from by
    constructor
    · rw [hio]; exact hmx
    · rw [hpi]; omega)]
  rw [if_neg (show ¬ ((j : Int) = io_size) from by omega)]
  rw [if_neg (show ¬ (b + (j : Int) = InvalidBlockNumber) from by
    have h1 : (j : Int) < (k : Int) := by omega
    omega)]
  rw [if_pos (show (j : Int) > 0 ∧ True from ⟨by omega, trivial⟩)]
  simp only [Nat.add_sub_cancel]

/-- The first turn of the look-ahead loop on a fresh stream: the run's first
block b opens a new pending read of length 1. -/
theorem merge_loop_start (io_size b : Int) (k : Nat) (w : Bool)
    (bufs : List Int) (s : StreamingRead) (fuel : Nat) (calls : List SRBCall)
    (hio : s.ios_in_progress = 0) (hpi : s.pinned_buffers = 0)
    (hpe : s.pending_read_nblocks = 0)
    (hmx : 0 < s.max_ios) (hug : s.have_unget_blocknum = false)
    (hdist : (k : Int) ≤ s.distance) (hks : (k : Int) ≤ io_size)
    (hb0 : 0 ≤ b) (hbk : b + (k : Int) ≤ InvalidBlockNumber)
    (hk1 : 1 ≤ k) :
    streaming_read_look_ahead_loop io_size (fuel + 1) s
        { cb_blocks := consecutiveRun b k
          reads := [⟨(k : Int), w, bufs⟩] } calls =
      streaming_read_look_ahead_loop io_size fuel
        { s with
          pending_read_blocknum := b
          pending_read_nblocks := 1 }
        { cb_blocks := consecutiveRun (b + 1) (k - 1)
          reads := [⟨(k : Int), w, bufs⟩] } calls := by
  rw [show k = (k - 1) + 1 from by omega]
  simp only [streaming_read_look_ahead_loop, consecutiveRun,
    streaming_read_get_block, SREnv.nextBlock, hug, Bool.not_false, if_true]
  rw [if_pos (show s.ios_in_progress < s.max_ios ∧
      s.pinned_buffers + s.pending_read_nblocks < s.distance from by
    rw [hio, hpi, hpe]
    exact ⟨hmx, by omega⟩)]
  rw [if_neg (show ¬ (s.pending_read_nblocks = io_size) from by
    rw [hpe]; omega)]
  rw [if_neg (show ¬ (b = InvalidBlockNumber) from by
    have h1 : (1 : Int) ≤ (k : Int) := by omega
    omega)]
  rw [if_neg (show ¬ (s.pending_read_nblocks > 0 ∧
      s.pending_read_blocknum + s.pending_read_nblocks = b) from by
    rw [hpe]
    intro hx
    exact absurd hx.1 (by omega))]
  rw [if_neg (show ¬ (s.pending_read_nblocks > 0) from by rw [hpe]; omega)]
  simp only [Nat.add_sub_cancel]

/-- Chaining the merge turns: from j blocks merged the loop reaches the
state with all k blocks merged and the callback exhausted, with no read
started on the way. -/
theorem merge_loop_chain (io_size b : Int) (k : Nat) (w : Bool)
    (bufs : List Int) (s : StreamingRead)
    (hio : s.ios_in_progress = 0) (hpi : s.pinned_buffers = 0)
    (hmx : 0 < s.max_ios) (hug : s.have_unget_blocknum = false)
    (hdist : (k : Int) ≤ s.distance) (hks : (k : Int) ≤ io_size)
    (hb0 : 0 ≤ b) (hbk : b + (k : Int) ≤ InvalidBlockNumber) :
    ∀ (r j : Nat), 1 ≤ j → j + r = k → ∀ calls : List SRBCall,
    streaming_read_look_ahead_loop io_size (r + 2)
        { s with
          pending_read_blocknum := b
          pending_read_nblocks := (j : Int) }
        { cb_blocks := consecutiveRun (b + (j : Int)) (k - j)
          reads := [⟨(k : Int), w, bufs⟩] } calls =
      streaming_read_look_ahead_loop io_size 2
        { s with
          pending_read_blocknum := b
          pending_read_nblocks := (k : Int) }
        { cb_blocks := consecutiveRun (b + (k : Int)) (k - k)
          reads := [⟨(k : Int), w, bufs⟩] } calls := by
  intro r
  induction r with
  | zero =>
    intro j hj1 hjr calls
    obtain rfl : j = k := by omega
    rfl
  | succ r ih =>
    intro j hj1 hjr calls
    have hjk : j < k := by omega
    have e1 : r + 1 + 2 = (r + 2) + 1 := by omega
    rw [e1]
    have hstep := merge_loop_step io_size b k w bufs s (r + 2) j calls hio hpi
      hmx hug hdist hks hb0 hbk hj1 hjk
    have e2 : ((j + 1 : Nat) : Int) = (j : Int) + 1 := by push_cast; ring
    have e3 : k - (j + 1) = k - j - 1 := by omega
    have e4 : b + ((j : Int) + 1) = b + (j : Int) + 1 := by ring
    have ih2 := ih (j + 1) (by omega) (by omega) calls
    rw [e2, e3, e4] at ih2
    exact hstep.trans ih2

/-- Observable effects of streaming_read_start_pending_read that the merge
law needs: it never touches the unget slot, shrinks the pending read by what
was pinned, advances the environment by one read outcome, and appends
exactly one call record built from the entry values of the pending read. -/
theorem streaming_read_start_pending_read_spec (s : StreamingRead)
    (env : SREnv) (calls : List SRBCall) :
    (streaming_read_start_pending_read s env calls).1.have_unget_blocknum =
      s.have_unget_blocknum ∧
    (streaming_read_start_pending_read s env calls).1.pending_read_nblocks =
      s.pending_read_nblocks -
        ((env.nextRead s.pending_read_nblocks).1).nblocks ∧
    (streaming_read_start_pending_read s env calls).2.1 =
      (env.nextRead s.pending_read_nblocks).2 ∧
    (streaming_read_start_pending_read s env calls).2.2 = calls ++
      [{ blocknum := s.pending_read_blocknum
         req_nblocks := s.pending_read_nblocks
         ret_nblocks := ((env.nextRead s.pending_read_nblocks).1).nblocks
         need_wait := ((env.nextRead s.pending_read_nblocks).1).need_wait
         advice := s.advice_enabled &&
           (s.pending_read_blocknum != s.seq_blocknum) }] := by
  unfold streaming_read_start_pending_read
  dsimp only
  refine ⟨?_, ?_, ?_, ?_⟩ <;> first
    | rfl
    | (split_ifs <;> rfl)

/-- A single look-ahead loop turn against an exhausted callback starts no
read and returns normally (possibly zeroing the distance on the sentinel),
provided the pending read is not exactly buffer_io_size blocks. -/
theorem loop_one_empty_cb (io_size : Int) (s : StreamingRead) (env : SREnv)
    (calls : List SRBCall)
    (hcb : env.cb_blocks = []) (hug : s.have_unget_blocknum = false)
    (hpio : s.pending_read_nblocks ≠ io_size) :
    ∃ s2 : StreamingRead,
      streaming_read_look_ahead_loop io_size 1 s env calls =
        some (s2, env, calls, false) ∧
      s2.pending_read_nblocks = s.pending_read_nblocks := by
  by_cases hcond : s.ios_in_progress < s.max_ios ∧
      s.pinned_buffers + s.pending_read_nblocks < s.distance
  · refine ⟨{ s with distance := 0 }, ?_, rfl⟩
    show streaming_read_look_ahead_loop io_size (0 + 1) s env calls = _
    simp only [streaming_read_look_ahead_loop, streaming_read_get_block,
      SREnv.nextBlock, hug, hcb, Bool.not_false, if_true]
    rw [if_pos hcond, if_neg hpio]
  · refine ⟨s, ?_, rfl⟩
    show streaming_read_look_ahead_loop io_size (0 + 1) s env calls = _
    simp only [streaming_read_look_ahead_loop]
    rw [if_neg hcond]

set_option maxHeartbeats 1600000 in
/-- The look-ahead loop's behaviour once all k blocks of the run are merged
and the callback is exhausted: at distance exactly k the loop stops with the
pending read intact; above k with k < buffer_io_size the sentinel zeroes the
distance and stops, pending read intact; above k with k = buffer_io_size the
loop itself starts the read — exactly one call — and finishes with no
pending read. -/
theorem merge_loop_final (io_size b : Int) (k : Nat) (w : Bool)
    (bufs : List Int) (s : StreamingRead) (calls : List SRBCall)
    (hio : s.ios_in_progress = 0) (hpi : s.pinned_buffers = 0)
    (hmx : 0 < s.max_ios) (hug : s.have_unget_blocknum = false)
    (hdist : (k : Int) ≤ s.distance) (hks : (k : Int) ≤ io_size)
    (hk1 : 1 ≤ k) :
    (streaming_read_look_ahead_loop io_size 2
        { s with
          pending_read_blocknum := b
          pending_read_nblocks := (k : Int) }
        { cb_blocks := [], reads := [⟨(k : Int), w, bufs⟩] } calls =
      some ({ s with
          pending_read_blocknum := b
          pending_read_nblocks := (k : Int) },
        { cb_blocks := [], reads := [⟨(k : Int), w, bufs⟩] }, calls, false) ∧
      (k : Int) = s.distance) ∨
    (streaming_read_look_ahead_loop io_size 2
        { s with
          pending_read_blocknum := b
          pending_read_nblocks := (k : Int) }
        { cb_blocks := [], reads := [⟨(k : Int), w, bufs⟩] } calls =
      some ({ s with
          pending_read_blocknum := b
          pending_read_nblocks := (k : Int)
          distance := 0 },
        { cb_blocks := [], reads := [⟨(k : Int), w, bufs⟩] }, calls, false) ∧
      (k : Int) < s.distance ∧ (k : Int) < io_size) ∨
    (∃ (s2 : StreamingRead) (env2 : SREnv),
      streaming_read_look_ahead_loop io_size 2
        { s with
          pending_read_blocknum := b
          pending_read_nblocks := (k : Int) }
        { cb_blocks := [], reads := [⟨(k : Int), w, bufs⟩] } calls =
      some (s2, env2, calls ++
        [{ blocknum := b
           req_nblocks := (k : Int)
           ret_nblocks := (k : Int)
           need_wait := w
           advice := s.advice_enabled && (b != s.seq_blocknum) }], false) ∧
      s2.pending_read_nblocks = 0) := by
  by_cases hd : (k : Int) < s.distance
  · by_cases hkio : (k : Int) = io_size
    · right; right
      have hspec := streaming_read_start_pending_read_spec
        { s with
          pending_read_blocknum := b
          pending_read_nblocks := (k : Int) }
        { cb_blocks := [], reads := [⟨(k : Int), w, bufs⟩] } calls
      dsimp only [SREnv.nextRead] at hspec
      obtain ⟨hu, hp, he, hc⟩ := hspec
      obtain ⟨s2, hloop1, hpend⟩ := loop_one_empty_cb io_size
        (streaming_read_start_pending_read
          { s with
            pending_read_blocknum := b
            pending_read_nblocks := (k : Int) }
          { cb_blocks := [], reads := [⟨(k : Int), w, bufs⟩] } calls).1
        (streaming_read_start_pending_read
          { s with
            pending_read_blocknum := b
            pending_read_nblocks := (k : Int) }
          { cb_blocks := [], reads := [⟨(k : Int), w, bufs⟩] } calls).2.1
        (streaming_read_start_pending_read
          { s with
            pending_read_blocknum := b
            pending_read_nblocks := (k : Int) }
          { cb_blocks := [], reads := [⟨(k : Int), w, bufs⟩] } calls).2.2
        (by rw [he]) (by rw [hu]; exact hug) (by rw [hp]; omega)
      refine ⟨s2,
        (streaming_read_start_pending_read
          { s with
            pending_read_blocknum := b
            pending_read_nblocks := (k : Int) }
          { cb_blocks := [], reads := [⟨(k : Int), w, bufs⟩] } calls).2.1,
        ?_, by omega⟩
      show streaming_read_look_ahead_loop io_size (1 + 1) _ _ calls = _
      simp only [streaming_read_look_ahead_loop]
      rw [if_pos (show s.ios_in_progress < s.max_ios ∧
          s.pinned_buffers + (k : Int) < s.distance from by
        rw [hio, hpi]
        exact ⟨hmx, by omega⟩)]
      rw [if_pos hkio]
      rw [hc] at hloop1
      exact hloop1
    · right; left
      refine ⟨?_, hd, by omega⟩
      show streaming_read_look_ahead_loop io_size (1 + 1) _ _ calls = _
      simp only [streaming_read_look_ahead_loop, streaming_read_get_block,
        SREnv.nextBlock, hug, Bool.not_false, if_true]
      rw [if_pos (show s.ios_in_progress < s.max_ios ∧
          s.pinned_buffers + (k : Int) < s.distance from by
        rw [hio, hpi]
        exact ⟨hmx, by omega⟩)]
      rw [if_neg hkio]
  · left
    refine ⟨?_, by omega⟩
    show streaming_read_look_ahead_loop io_size (1 + 1) _ _ calls = _
    simp only [streaming_read_look_ahead_loop]
    rw [if_neg (show ¬ (s.ios_in_progress < s.max_ios ∧
        s.pinned_buffers + (k : Int) < s.distance) from by
      rw [hio, hpi]
      rintro ⟨h1, h2⟩
      omega)]

set_option maxHeartbeats 1600000 in
/-- C7 (amended): when the client callback returns the consecutive run
b, b+1, ..., b+k-1 followed by the end-of-stream sentinel, with
k ≤ buffer_io_size, no intervening non-consecutive block, the look-ahead
distance at least k and the I/O budget not exhausted, the look-ahead engine
extends a single pending read block by block and issues exactly one
StartReadBuffers call for the run, requesting blocks b..b+k-1. -/
theorem streaming_read_merge_law (io_size b : Int) (k : Nat) (w : Bool)
    (bufs : List Int) (s : StreamingRead)
    (hio : s.ios_in_progress = 0) (hpi : s.pinned_buffers = 0)
    (hpe : s.pending_read_nblocks = 0)
    (hmx : 0 < s.max_ios) (hug : s.have_unget_blocknum = false)
    (hdist : (k : Int) ≤ s.distance) (hks : (k : Int) ≤ io_size)
    (hb0 : 0 ≤ b) (hbk : b + (k : Int) ≤ InvalidBlockNumber) (hk1 : 1 ≤ k) :
    ∃ (s2 : StreamingRead) (env2 : SREnv),
      streaming_read_look_ahead io_size (k + 2) s
        { cb_blocks := consecutiveRun b k
          reads := [⟨(k : Int), w, bufs⟩] } [] =
      some (s2, env2,
        [{ blocknum := b
           req_nblocks := (k : Int)
           ret_nblocks := (k : Int)
           need_wait := w
           advice := s.advice_enabled && (b != s.seq_blocknum) }]) := by
  have hler : streaming_read_look_ahead_loop io_size (k + 2) s
      { cb_blocks := consecutiveRun b k
        reads := [⟨(k : Int), w, bufs⟩] } [] =
      streaming_read_look_ahead_loop io_size 2
        { s with
          pending_read_blocknum := b
          pending_read_nblocks := (k : Int) }
        { cb_blocks := [], reads := [⟨(k : Int), w, bufs⟩] } [] := by
    have e1 : k + 2 = (k + 1) + 1 := by omega
    rw [e1]
    have hstart := merge_loop_start io_size b k w bufs s (k + 1) [] hio hpi hpe
      hmx hug hdist hks hb0 hbk hk1
    refine hstart.trans ?_
    have hchain := merge_loop_chain io_size b k w bufs s hio hpi hmx hug hdist
      hks hb0 hbk (k - 1) 1 le_rfl (by omega) []
    have e2 : (k - 1) + 2 = k + 1 := by omega
    rw [e2] at hchain
    simp only [Nat.cast_one, Nat.sub_self, consecutiveRun] at hchain
    exact hchain
  rcases merge_loop_final io_size b k w bufs s [] hio hpi hmx hug hdist hks hk1
    with ⟨hfin, hdeq⟩ | ⟨hfin, hlt, hlio⟩ | ⟨s2, env2, hfin, hpend⟩
  · obtain ⟨-, -, -, hc⟩ := streaming_read_start_pending_read_spec
      { s with
        pending_read_blocknum := b
        pending_read_nblocks := (k : Int) }
      { cb_blocks := [], reads := [⟨(k : Int), w, bufs⟩] } []
    dsimp only [SREnv.nextRead] at hc
    refine ⟨(streaming_read_start_pending_read
        { s with
          pending_read_blocknum := b
          pending_read_nblocks := (k : Int) }
        { cb_blocks := [], reads := [⟨(k : Int), w, bufs⟩] } []).1,
      (streaming_read_start_pending_read
        { s with
          pending_read_blocknum := b
          pending_read_nblocks := (k : Int) }
        { cb_blocks := [], reads := [⟨(k : Int), w, bufs⟩] } []).2.1, ?_⟩
    unfold streaming_read_look_ahead
    rw [hler, hfin]
    dsimp only
    rw [if_neg Bool.false_ne_true]
    rw [if_pos (show (k : Int) > 0 ∧
        (s.distance = (k : Int) ∨ s.distance = 0) ∧
        s.ios_in_progress < s.max_ios from
      ⟨by omega, Or.inl (by omega), by rw [hio]; exact hmx⟩)]
    rw [hc, List.nil_append]
  · obtain ⟨-, -, -, hc⟩ := streaming_read_start_pending_read_spec
      { s with
        pending_read_blocknum := b
        pending_read_nblocks := (k : Int)
        distance := 0 }
      { cb_blocks := [], reads := [⟨(k : Int), w, bufs⟩] } []
    dsimp only [SREnv.nextRead] at hc
    refine ⟨(streaming_read_start_pending_read
        { s with
          pending_read_blocknum := b
          pending_read_nblocks := (k : Int)
          distance := 0 }
        { cb_blocks := [], reads := [⟨(k : Int), w, bufs⟩] } []).1,
      (streaming_read_start_pending_read
        { s with
          pending_read_blocknum := b
          pending_read_nblocks := (k : Int)
          distance := 0 }
        { cb_blocks := [], reads := [⟨(k : Int), w, bufs⟩] } []).2.1, ?_⟩
    unfold streaming_read_look_ahead
    rw [hler, hfin]
    dsimp only
    rw [if_neg Bool.false_ne_true]
    rw [if_pos (show (k : Int) > 0 ∧
        ((0 : Int) = (k : Int) ∨ (0 : Int) = 0) ∧
        s.ios_in_progress < s.max_ios from
      ⟨by omega, Or.inr rfl, by rw [hio]; exact hmx⟩)]
    rw [hc, List.nil_append]
  · refine ⟨s2, env2, ?_⟩
    unfold streaming_read_look_ahead
    rw [hler, hfin]
    dsimp only
    rw [if_neg Bool.false_ne_true]
    rw [if_neg (show ¬ (s2.pending_read_nblocks > 0 ∧
        (s2.distance = s2.pending_read_nblocks ∨ s2.distance = 0) ∧
        s2.ios_in_progress < s2.max_ios) from by
      rintro ⟨h1, -, -⟩
      rw [hpend] at h1
      omega)]
    rw [List.nil_append]

/-- Witness for the merge law: the run 100, 101, 102 (k = 3 ≤ 8) at
distance 4 produces exactly one StartReadBuffers call for blocks
100..102. -/
theorem streaming_read_merge_law_witness :
    ∃ (s2 : StreamingRead) (env2 : SREnv),
      streaming_read_look_ahead 8 (3 + 2) { freshStream with distance := 4 }
        { cb_blocks := consecutiveRun 100 3
          reads := [⟨3, true, [1, 2, 3]⟩] } [] =
      some (s2, env2,
        [{ blocknum := 100
           req_nblocks := 3
           ret_nblocks := 3
           need_wait := true
           advice := false }]) :=
  streaming_read_merge_law 8 100 3 true [1, 2, 3]
    { freshStream with distance := 4 } rfl rfl rfl (by decide) rfl
    (by decide) (by decide) (by decide) (by decide) (by decide)
